import Mathlib

/-!
# Verification of the pi-diff rendering core

Shallow embedding of the diff rendering engine:
* the `DiffLine`/`FileDiff` data model (from `diff-engine` as consumed by the views),
* the ANSI-aware text-layout primitives `truncateToWidth` and `padToWidth`
  (identical private methods of `InlineDiffView` in `inline-view.ts` and
  `SideBySideDiffView` in `side-by-side-view.ts`; embedded once and shared),
* the inline renderer (`inline-view.ts`),
* the side-by-side renderer (`side-by-side-view.ts`),
* the view controller (`diff-view-controller.ts`),
* the review modal's selection logic (`modal.ts`).

TypeScript strings are modelled as `List Char`; JavaScript numbers that are
used as non-negative integers (line numbers, widths, heights, scroll offsets,
scroll amounts) are modelled as `Nat`, where truncated subtraction `a - b`
coincides with the source's `Math.max(0, a - b)` clamping.
-/

namespace PiDiff

/-- The ASCII escape character `\x1b` that introduces an ANSI escape sequence. -/
def escChar : Char := Char.ofNat 27

/-- The ANSI reset sequence `"\x1b[0m"`. -/
def resetSeq : List Char := [escChar, '[', '0', 'm']

/-- The two-character sequence `"\x1b["` that `truncateToWidth` searches for
with `result.includes('\x1b[')`. -/
def escBracket : List Char := [escChar, '[']

/-- `containsSub pat l` is the embedding of JavaScript `l.includes(pat)`:
`pat` occurs as a contiguous subsequence of `l`. -/
def containsSub (pat : List Char) : List Char → Bool
  | [] => pat.isPrefixOf ([] : List Char)
  | c :: rest => pat.isPrefixOf (c :: rest) || containsSub pat rest

/-- The decimal digit character for `d < 10`, embedding of JavaScript number
formatting of a single digit. -/
def digitChar (d : Nat) : Char := Char.ofNat (48 + d)

/-- Fuel-indexed base-10 digit expansion; with fuel at least `n` this is the
usual most-significant-first expansion, and the structural recursion lets
concrete witnesses evaluate inside the kernel. -/
def natToCharsFuel : Nat → Nat → List Char
  | 0, n => [digitChar n]
  | fuel + 1, n =>
    if n < 10 then [digitChar n]
    else natToCharsFuel fuel (n / 10) ++ [digitChar (n % 10)]

/-- Embedding of JavaScript `n.toString()` for a non-negative integer:
base-10 digit characters, most significant first (see `natToChars_eq` for
the defining recurrence). -/
def natToChars (n : Nat) : List Char := natToCharsFuel n n

/-- Embedding of JavaScript `s.padStart(targetLength, c)`: prepend copies of
`c` until the length reaches `targetLength` (no-op when already long enough). -/
def padStart (s : List Char) (targetLength : Nat) (c : Char) : List Char :=
  List.replicate (targetLength - s.length) c ++ s

/-- The character-consuming loop of `truncateToWidth`
(`inline-view.ts` lines 153–188 / `side-by-side-view.ts` lines 266–298).
Parameters mirror the source's loop state: the remaining input, the
`visibleLength` counter, the accumulated `result`, the `inEscape` flag and the
pending `escapeSequence`.  The `\x1b` check comes first (restarting a pending
sequence), then the in-escape accumulation (flushed into `result` on `m`),
then the width check (`break`), then ordinary consumption. -/
def truncLoop (width : Nat) : List Char → Nat → List Char → Bool → List Char → List Char
  | [], _, result, _, _ => result
  | c :: rest, visibleLength, result, inEscape, escapeSequence =>
    if c = escChar then
      truncLoop width rest visibleLength result true [c]
    else if inEscape then
      let seq := escapeSequence ++ [c]
      if c = 'm' then truncLoop width rest visibleLength (result ++ seq) false []
      else truncLoop width rest visibleLength result true seq
    else if width ≤ visibleLength then result
    else truncLoop width rest (visibleLength + 1) (result ++ [c]) inEscape escapeSequence

/-- `truncateToWidth` (identical in `InlineDiffView` and `SideBySideDiffView`):
ANSI-aware truncation.  After the loop, a reset is appended when the result
contains `"\x1b["` but does not already end in `"\x1b[0m"`. -/
def truncateToWidth (line : List Char) (width : Nat) : List Char :=
  let result := truncLoop width line 0 [] false []
  if containsSub escBracket result && !(resetSeq.isSuffixOf result) then
    result ++ resetSeq
  else result

/-- The visible-length scan of `padToWidth`
(`side-by-side-view.ts` lines 308–328): counts characters outside ANSI escape
runs; `\x1b` always (re)enters escape mode, `m` leaves it. -/
def visibleLenLoop : List Char → Bool → Nat
  | [], _ => 0
  | c :: rest, inEscape =>
    if c = escChar then visibleLenLoop rest true
    else if inEscape then
      if c = 'm' then visibleLenLoop rest false else visibleLenLoop rest true
    else visibleLenLoop rest inEscape + 1

/-- Visible (escape-stripped) length of a styled string, scanning from the
initial non-escape state. -/
def visibleLen (content : List Char) : Nat := visibleLenLoop content false

/-- `padToWidth` of `SideBySideDiffView` (`side-by-side-view.ts` lines
307–341).  The `rawContent` parameter is accepted but unused, as in the
source.  Padding is inserted before a trailing reset sequence when present. -/
def padToWidth (content rawContent : List Char) (width : Nat) : List Char :=
  let visibleLength := visibleLen content
  let padding := width - visibleLength
  if padding = 0 then content
  else if resetSeq.isSuffixOf content then
    content.take (content.length - 4) ++ List.replicate padding ' ' ++ resetSeq
  else
    content ++ List.replicate padding ' '

/-- A diff line as consumed by both renderers: a tag, the verbatim line
content, and optional old/new line numbers (context lines carry both, added
lines only a new number, removed lines only an old number). -/
inductive DiffLineType
  | context
  | added
  | removed
deriving DecidableEq, Repr

/-- A single line of a computed diff (`DiffLine` of `diff-engine`), with the
optional line-number fields exactly as the views access them. -/
structure DiffLine where
  type : DiffLineType
  content : List Char
  oldLineNumber : Option Nat
  newLineNumber : Option Nat
deriving DecidableEq, Repr

/-- The part of `FileDiff` the renderers consume: the file path (fed to the
highlight function) and the ordered hunk sequence. -/
structure FileDiff where
  filePath : List Char
  hunks : List DiffLine
deriving DecidableEq, Repr

/-- The injected syntax-highlight function
`(code: string, filePath: string) => string`. -/
def HighlightFn : Type := List Char → List Char → List Char

end PiDiff

namespace PiDiff

/-! ## Inline renderer (`inline-view.ts`) -/

namespace InlineDiffView

/-- ANSI green, `"\x1b[32m"`. -/
def green : List Char := [escChar, '[', '3', '2', 'm']

/-- ANSI red, `"\x1b[31m"`. -/
def red : List Char := [escChar, '[', '3', '1', 'm']

/-- ANSI dim, `"\x1b[2m"`. -/
def dim : List Char := [escChar, '[', '2', 'm']

/-- A cached rendered line: the styled string and its escape-stripped form. -/
structure RenderedLine where
  content : List Char
  rawContent : List Char
deriving DecidableEq, Repr

/-- `renderHunk` (`inline-view.ts` lines 110–145): pick the displayed line
number (`newLineNumber ?? oldLineNumber ?? 0`), right-pad it into the
line-number column, choose marker and color by tag, highlight only context
content, and assemble `color ++ lineNumStr ++ " " ++ marker ++ " " ++ content
++ reset` with the unstyled `rawContent` built from the original content. -/
def renderHunk (highlightFn : Option HighlightFn) (filePath : List Char)
    (hunk : DiffLine) (lineNumberWidth : Nat) : RenderedLine :=
  let lineNumber := hunk.newLineNumber.getD (hunk.oldLineNumber.getD 0)
  let lineNumStr := padStart (natToChars lineNumber) lineNumberWidth ' '
  let pfx : Char :=
    match hunk.type with
    | .added => '+'
    | .removed => '-'
    | .context => ' '
  let color : List Char :=
    match hunk.type with
    | .added => green
    | .removed => red
    | .context => dim
  let content : List Char :=
    match hunk.type, highlightFn with
    | .context, some f => f hunk.content filePath
    | _, _ => hunk.content
  { content := color ++ lineNumStr ++ [' ', pfx, ' '] ++ content ++ resetSeq,
    rawContent := lineNumStr ++ [' ', pfx, ' '] ++ hunk.content }

/-- `createSeparatorLine` (`inline-view.ts` lines 147–151): a dim `···`. -/
def createSeparatorLine : RenderedLine :=
  { content := dim ++ ['·', '·', '·'] ++ resetSeq,
    rawContent := ['·', '·', '·'] }

/-- `getMaxLineNumber` (`inline-view.ts` lines 101–108): fold of
`Math.max` over each hunk's `newLineNumber ?? oldLineNumber ?? 0`. -/
def getMaxLineNumber (diff : FileDiff) : Nat :=
  diff.hunks.foldl
    (fun mx hunk => Nat.max mx (hunk.newLineNumber.getD (hunk.oldLineNumber.getD 0))) 0

/-- The hunk loop of `buildRenderedLines` (`inline-view.ts` lines 80–98):
one evolving `previousLineNumber`; a separator is pushed before the current
hunk when both the previous tracked number and the current
`newLineNumber ?? oldLineNumber` are defined and the current exceeds the
previous by more than 1; the tracker is updated only when the current number
is defined. -/
def buildLoop (highlightFn : Option HighlightFn) (filePath : List Char)
    (lineNumberWidth : Nat) : List DiffLine → Option Nat → List RenderedLine
  | [], _ => []
  | hunk :: rest, previousLineNumber =>
    let currentLineNumber : Option Nat :=
      match hunk.newLineNumber with
      | some n => some n
      | none => hunk.oldLineNumber
    let sep : List RenderedLine :=
      match previousLineNumber, currentLineNumber with
      | some p, some c => if p + 1 < c then [createSeparatorLine] else []
      | _, _ => []
    let nextPrevious : Option Nat :=
      match currentLineNumber with
      | some c => some c
      | none => previousLineNumber
    sep ++ renderHunk highlightFn filePath hunk lineNumberWidth ::
      buildLoop highlightFn filePath lineNumberWidth rest nextPrevious

/-- `buildRenderedLines` (`inline-view.ts` lines 67–99): empty diff renders
nothing; otherwise the column width is the digit count of
`getMaxLineNumber` and the hunk loop starts with no previous number. -/
def buildRenderedLines (highlightFn : Option HighlightFn) (diff : FileDiff) :
    List RenderedLine :=
  if diff.hunks = [] then []
  else
    let maxLineNumber := getMaxLineNumber diff
    let lineNumberWidth := (natToChars maxLineNumber).length
    buildLoop highlightFn diff.filePath lineNumberWidth diff.hunks none

/-- The mutable state of an `InlineDiffView`: the cached rendered lines and
the scroll offset. -/
structure State where
  renderedLines : List RenderedLine
  scrollOffset : Nat
deriving DecidableEq, Repr

/-- The constructor: build the rendered lines, scroll offset `0`. -/
def ofDiff (highlightFn : Option HighlightFn) (diff : FileDiff) : State :=
  { renderedLines := buildRenderedLines highlightFn diff, scrollOffset := 0 }

/-- `setDiff`: rebuild the rendered lines and reset the scroll offset. -/
def setDiff (highlightFn : Option HighlightFn) (s : State) (diff : FileDiff) : State :=
  { renderedLines := buildRenderedLines highlightFn diff, scrollOffset := 0 }

/-- `scrollUp(lines)`: `Math.max(0, offset - lines)` (truncated `Nat`
subtraction). -/
def scrollUp (s : State) (lines : Nat) : State :=
  { s with scrollOffset := s.scrollOffset - lines }

/-- `scrollDown(lines)`: `Math.min(Math.max(0, totalLines), offset + lines)`. -/
def scrollDown (s : State) (lines : Nat) : State :=
  { s with scrollOffset :=
      Nat.min (Nat.max 0 s.renderedLines.length) (s.scrollOffset + lines) }

/-- `scrollToTop`. -/
def scrollToTop (s : State) : State := { s with scrollOffset := 0 }

/-- `scrollToBottom`: `Math.max(0, totalLines)`. -/
def scrollToBottom (s : State) : State :=
  { s with scrollOffset := Nat.max 0 s.renderedLines.length }

/-- `totalLines` getter. -/
def totalLines (s : State) : Nat := s.renderedLines.length

/-- `render(width, visibleHeight)` (`inline-view.ts` lines 55–65): re-clamp
the offset to `[0, max(0, total - height)]` (a mutation, so the new state is
returned too), slice the visible window, and truncate each line. -/
def render (s : State) (width visibleHeight : Nat) : State × List (List Char) :=
  let maxOffset := Nat.max 0 (s.renderedLines.length - visibleHeight)
  let offset := Nat.min s.scrollOffset maxOffset
  let endIndex := Nat.min (offset + visibleHeight) s.renderedLines.length
  let visibleLines := (s.renderedLines.drop offset).take (endIndex - offset)
  ({ s with scrollOffset := offset },
   visibleLines.map fun line => truncateToWidth line.content width)

end InlineDiffView

end PiDiff

namespace PiDiff

/-! ## Side-by-side renderer (`side-by-side-view.ts`) -/

namespace SideBySideDiffView

/-- ANSI green, `"\x1b[32m"`. -/
def green : List Char := [escChar, '[', '3', '2', 'm']

/-- ANSI red, `"\x1b[31m"`. -/
def red : List Char := [escChar, '[', '3', '1', 'm']

/-- ANSI dim, `"\x1b[2m"`. -/
def dim : List Char := [escChar, '[', '2', 'm']

/-- A cached rendered row: styled and escape-stripped forms of the left (old)
and right (new) cells. -/
structure RenderedLine where
  leftContent : List Char
  leftRawContent : List Char
  rightContent : List Char
  rightRawContent : List Char
deriving DecidableEq, Repr

/-- `renderContextLine` (`side-by-side-view.ts` lines 163–196): identical
content in both cells, each highlighted by its own call, dim-styled, with the
old number on the left and the new number on the right. -/
def renderContextLine (highlightFn : Option HighlightFn) (filePath : List Char)
    (hunk : DiffLine) (oldLineNumberWidth newLineNumberWidth : Nat) : RenderedLine :=
  let oldLineNum := hunk.oldLineNumber.getD 0
  let newLineNum := hunk.newLineNumber.getD 0
  let oldLineNumStr := padStart (natToChars oldLineNum) oldLineNumberWidth ' '
  let newLineNumStr := padStart (natToChars newLineNum) newLineNumberWidth ' '
  let leftContentText : List Char :=
    match highlightFn with
    | some f => f hunk.content filePath
    | none => hunk.content
  let rightContentText : List Char :=
    match highlightFn with
    | some f => f hunk.content filePath
    | none => hunk.content
  { leftContent := dim ++ oldLineNumStr ++ [' '] ++ leftContentText ++ resetSeq,
    leftRawContent := oldLineNumStr ++ [' '] ++ hunk.content,
    rightContent := dim ++ newLineNumStr ++ [' '] ++ rightContentText ++ resetSeq,
    rightRawContent := newLineNumStr ++ [' '] ++ hunk.content }

/-- `renderRemovedLine` (`side-by-side-view.ts` lines 198–223): red content in
the left cell only; the right cell is a blank line-number column plus one
space. -/
def renderRemovedLine (hunk : DiffLine)
    (oldLineNumberWidth newLineNumberWidth : Nat) : RenderedLine :=
  let oldLineNum := hunk.oldLineNumber.getD 0
  let oldLineNumStr := padStart (natToChars oldLineNum) oldLineNumberWidth ' '
  let newLineNumStr := padStart ([] : List Char) newLineNumberWidth ' '
  { leftContent := red ++ oldLineNumStr ++ [' '] ++ hunk.content ++ resetSeq,
    leftRawContent := oldLineNumStr ++ [' '] ++ hunk.content,
    rightContent := newLineNumStr ++ [' '],
    rightRawContent := newLineNumStr ++ [' '] }

/-- `renderAddedLine` (`side-by-side-view.ts` lines 225–250): the mirror image
of `renderRemovedLine`, green content in the right cell only. -/
def renderAddedLine (hunk : DiffLine)
    (oldLineNumberWidth newLineNumberWidth : Nat) : RenderedLine :=
  let newLineNum := hunk.newLineNumber.getD 0
  let newLineNumStr := padStart (natToChars newLineNum) newLineNumberWidth ' '
  let oldLineNumStr := padStart ([] : List Char) oldLineNumberWidth ' '
  { leftContent := oldLineNumStr ++ [' '],
    leftRawContent := oldLineNumStr ++ [' '],
    rightContent := green ++ newLineNumStr ++ [' '] ++ hunk.content ++ resetSeq,
    rightRawContent := newLineNumStr ++ [' '] ++ hunk.content }

/-- `renderHunk` (`side-by-side-view.ts` lines 148–161): dispatch on the tag. -/
def renderHunk (highlightFn : Option HighlightFn) (filePath : List Char)
    (hunk : DiffLine) (oldLineNumberWidth newLineNumberWidth : Nat) : RenderedLine :=
  match hunk.type with
  | .context => renderContextLine highlightFn filePath hunk oldLineNumberWidth newLineNumberWidth
  | .removed => renderRemovedLine hunk oldLineNumberWidth newLineNumberWidth
  | .added => renderAddedLine hunk oldLineNumberWidth newLineNumberWidth

/-- `createSeparatorLine` (`side-by-side-view.ts` lines 252–264): a dim `···`
in both cells. -/
def createSeparatorLine : RenderedLine :=
  { leftContent := dim ++ ['·', '·', '·'] ++ resetSeq,
    leftRawContent := ['·', '·', '·'],
    rightContent := dim ++ ['·', '·', '·'] ++ resetSeq,
    rightRawContent := ['·', '·', '·'] }

/-- `getMaxOldLineNumber` (`side-by-side-view.ts` lines 128–136): maximum of
the defined old line numbers, starting from 0. -/
def getMaxOldLineNumber (diff : FileDiff) : Nat :=
  diff.hunks.foldl
    (fun mx hunk =>
      match hunk.oldLineNumber with
      | some n => Nat.max mx n
      | none => mx) 0

/-- `getMaxNewLineNumber` (`side-by-side-view.ts` lines 138–146): maximum of
the defined new line numbers, starting from 0. -/
def getMaxNewLineNumber (diff : FileDiff) : Nat :=
  diff.hunks.foldl
    (fun mx hunk =>
      match hunk.newLineNumber with
      | some n => Nat.max mx n
      | none => mx) 0

/-- The hunk loop of `buildRenderedLines` (`side-by-side-view.ts` lines
97–125): independent `previousOldLineNumber` and `previousNewLineNumber`
trackers.  When both the previous and current old numbers are defined, only
the old-side gap test runs; otherwise, when both new numbers are defined, the
new-side gap test runs.  Each tracker updates whenever its current number is
defined. -/
def buildLoop (highlightFn : Option HighlightFn) (filePath : List Char)
    (oldLineNumberWidth newLineNumberWidth : Nat) :
    List DiffLine → Option Nat → Option Nat → List RenderedLine
  | [], _, _ => []
  | hunk :: rest, previousOldLineNumber, previousNewLineNumber =>
    let currentOldLineNumber := hunk.oldLineNumber
    let currentNewLineNumber := hunk.newLineNumber
    let sep : List RenderedLine :=
      match previousOldLineNumber, currentOldLineNumber with
      | some p, some c => if p + 1 < c then [createSeparatorLine] else []
      | _, _ =>
        match previousNewLineNumber, currentNewLineNumber with
        | some p, some c => if p + 1 < c then [createSeparatorLine] else []
        | _, _ => []
    let nextPreviousOld : Option Nat :=
      match currentOldLineNumber with
      | some c => some c
      | none => previousOldLineNumber
    let nextPreviousNew : Option Nat :=
      match currentNewLineNumber with
      | some c => some c
      | none => previousNewLineNumber
    sep ++ renderHunk highlightFn filePath hunk oldLineNumberWidth newLineNumberWidth ::
      buildLoop highlightFn filePath oldLineNumberWidth newLineNumberWidth rest
        nextPreviousOld nextPreviousNew

/-- `buildRenderedLines` (`side-by-side-view.ts` lines 81–126): empty diff
renders nothing; otherwise both column widths are sized from their own
maximum and the loop starts with no previous numbers. -/
def buildRenderedLines (highlightFn : Option HighlightFn) (diff : FileDiff) :
    List RenderedLine :=
  if diff.hunks = [] then []
  else
    let oldLineNumberWidth := (natToChars (getMaxOldLineNumber diff)).length
    let newLineNumberWidth := (natToChars (getMaxNewLineNumber diff)).length
    buildLoop highlightFn diff.filePath oldLineNumberWidth newLineNumberWidth
      diff.hunks none none

/-- The mutable state of a `SideBySideDiffView`. -/
structure State where
  renderedLines : List RenderedLine
  scrollOffset : Nat
deriving DecidableEq, Repr

/-- The constructor: build the rendered lines, scroll offset `0`. -/
def ofDiff (highlightFn : Option HighlightFn) (diff : FileDiff) : State :=
  { renderedLines := buildRenderedLines highlightFn diff, scrollOffset := 0 }

/-- `setDiff`: rebuild the rendered lines and reset the scroll offset. -/
def setDiff (highlightFn : Option HighlightFn) (s : State) (diff : FileDiff) : State :=
  { renderedLines := buildRenderedLines highlightFn diff, scrollOffset := 0 }

/-- `scrollUp(lines)`: `Math.max(0, offset - lines)`. -/
def scrollUp (s : State) (lines : Nat) : State :=
  { s with scrollOffset := s.scrollOffset - lines }

/-- `scrollDown(lines)`: `Math.min(Math.max(0, totalLines), offset + lines)`. -/
def scrollDown (s : State) (lines : Nat) : State :=
  { s with scrollOffset :=
      Nat.min (Nat.max 0 s.renderedLines.length) (s.scrollOffset + lines) }

/-- `scrollToTop`. -/
def scrollToTop (s : State) : State := { s with scrollOffset := 0 }

/-- `scrollToBottom`: `Math.max(0, totalLines)`. -/
def scrollToBottom (s : State) : State :=
  { s with scrollOffset := Nat.max 0 s.renderedLines.length }

/-- `totalLines` getter. -/
def totalLines (s : State) : Nat := s.renderedLines.length

/-- `render(width, visibleHeight)` (`side-by-side-view.ts` lines 57–79):
re-clamp the offset, slice the window, truncate then pad each cell to
`panelWidth = (width - 1) / 2` and join with the `│` glyph. -/
def render (s : State) (width visibleHeight : Nat) : State × List (List Char) :=
  let maxOffset := Nat.max 0 (s.renderedLines.length - visibleHeight)
  let offset := Nat.min s.scrollOffset maxOffset
  let endIndex := Nat.min (offset + visibleHeight) s.renderedLines.length
  let visibleLines := (s.renderedLines.drop offset).take (endIndex - offset)
  let panelWidth := (width - 1) / 2
  ({ s with scrollOffset := offset },
   visibleLines.map fun line =>
     let left := truncateToWidth line.leftContent panelWidth
     let right := truncateToWidth line.rightContent panelWidth
     let leftPadded := padToWidth left line.leftRawContent panelWidth
     let rightPadded := padToWidth right line.rightRawContent panelWidth
     leftPadded ++ '│' :: rightPadded)

end SideBySideDiffView

end PiDiff

namespace PiDiff

/-! ## View controller (`diff-view-controller.ts`) -/

/-- The view mode tag, `'inline' | 'side-by-side'`. -/
inductive ViewMode
  | inline
  | sideBySide
deriving DecidableEq, Repr

/-- The controller state: one renderer of each kind and the active mode
(default `inline`). -/
structure DiffViewController where
  inlineView : InlineDiffView.State
  sideBySideView : SideBySideDiffView.State
  viewMode : ViewMode
deriving DecidableEq, Repr

namespace DiffViewController

/-- The constructor (`diff-view-controller.ts` lines 12–15): build both views,
mode defaults to inline. -/
def ofDiff (highlightFn : Option HighlightFn) (diff : FileDiff) : DiffViewController :=
  { inlineView := InlineDiffView.ofDiff highlightFn diff,
    sideBySideView := SideBySideDiffView.ofDiff highlightFn diff,
    viewMode := .inline }

/-- `setDiff` (lines 17–20): propagate to both views. -/
def setDiff (highlightFn : Option HighlightFn) (c : DiffViewController)
    (diff : FileDiff) : DiffViewController :=
  { c with
    inlineView := InlineDiffView.setDiff highlightFn c.inlineView diff,
    sideBySideView := SideBySideDiffView.setDiff highlightFn c.sideBySideView diff }

/-- `canUseSideBySide` (lines 50–52): `terminalWidth >= 120`. -/
def canUseSideBySide (terminalWidth : Nat) : Bool :=
  decide (120 ≤ terminalWidth)

/-- `resetScroll` (lines 86–89): scroll both views to the top. -/
def resetScroll (c : DiffViewController) : DiffViewController :=
  { c with
    inlineView := InlineDiffView.scrollToTop c.inlineView,
    sideBySideView := SideBySideDiffView.scrollToTop c.sideBySideView }

/-- `toggleViewMode` (lines 22–37): from inline, switch to side-by-side only
when the width allows, returning whether the switch happened; from
side-by-side, always switch back to inline; every switch resets scroll. -/
def toggleViewMode (c : DiffViewController) (terminalWidth : Nat) :
    DiffViewController × Bool :=
  match c.viewMode with
  | .inline =>
    if canUseSideBySide terminalWidth then
      (resetScroll { c with viewMode := .sideBySide }, true)
    else
      (c, false)
  | .sideBySide =>
    (resetScroll { c with viewMode := .inline }, true)

/-- `setViewMode` (lines 43–48): force a mode unconditionally; reset scroll
only when the mode actually changed. -/
def setViewMode (c : DiffViewController) (mode : ViewMode) : DiffViewController :=
  if c.viewMode ≠ mode then resetScroll { c with viewMode := mode } else c

/-- `scrollOffset` getter (lines 78–80): delegate to the active view. -/
def scrollOffset (c : DiffViewController) : Nat :=
  match c.viewMode with
  | .inline => c.inlineView.scrollOffset
  | .sideBySide => c.sideBySideView.scrollOffset

end DiffViewController

/-! ## Review modal selection (`modal.ts`) -/

/-- One entry of the modal's file list. -/
structure ModalFileEntry where
  path : List Char
  additions : Nat
  deletions : Nat
  isNewFile : Bool
deriving DecidableEq, Repr

/-- The modal's selection state: the cached file list and the selected index. -/
structure DiffReviewModal where
  selectedIndex : Nat
  fileList : List ModalFileEntry
deriving DecidableEq, Repr

namespace DiffReviewModal

/-- `selectedFile` (`modal.ts` lines 36–41): `undefined` on an empty list,
otherwise the path at the selected index via optional chaining. -/
def selectedFile (m : DiffReviewModal) : Option (List Char) :=
  if m.fileList.length = 0 then none
  else (m.fileList.get? m.selectedIndex).map ModalFileEntry.path

/-- `selectNext` (lines 46–51): wrap around modulo the list length; no-op on
an empty list. -/
def selectNext (m : DiffReviewModal) : DiffReviewModal :=
  if m.fileList.length = 0 then m
  else { m with selectedIndex := (m.selectedIndex + 1) % m.fileList.length }

/-- `selectPrevious` (lines 56–63): wrap from 0 to the last index; no-op on an
empty list. -/
def selectPrevious (m : DiffReviewModal) : DiffReviewModal :=
  if m.fileList.length = 0 then m
  else { m with selectedIndex :=
    if m.selectedIndex = 0 then m.fileList.length - 1 else m.selectedIndex - 1 }

/-- `selectIndex` (lines 68–74): reset to 0 on an empty list, otherwise clamp
`Math.max(0, Math.min(index, length - 1))`. -/
def selectIndex (m : DiffReviewModal) (index : Nat) : DiffReviewModal :=
  if m.fileList.length = 0 then { m with selectedIndex := 0 }
  else { m with selectedIndex := Nat.max 0 (Nat.min index (m.fileList.length - 1)) }

/-- `refresh` (`modal.ts` lines 119–137).  The file list recomputed from the
`DiffState` (whose `getChangedFiles`/`getFileDiff` source lies outside the
embedded rendering core) is passed in as `newFileList`; the selection index is
then clamped exactly as in the source: 0 on an empty list, `length - 1` when
it overflows, unchanged otherwise. -/
def refresh (m : DiffReviewModal) (newFileList : List ModalFileEntry) :
    DiffReviewModal :=
  let m2 := { m with fileList := newFileList }
  if m2.fileList.length = 0 then { m2 with selectedIndex := 0 }
  else if m2.fileList.length ≤ m2.selectedIndex then
    { m2 with selectedIndex := m2.fileList.length - 1 }
  else m2

/-- `dismissSelected` (`modal.ts` lines 91–107): returns `false` with no state
change when nothing is selected; otherwise dismisses the selected path in the
`DiffState` (external, so the resulting refreshed file list is passed in as
`newFileList`), refreshes, applies the extra last-file clamp of lines
102–104, and returns `true`. -/
def dismissSelected (m : DiffReviewModal) (newFileList : List ModalFileEntry) :
    DiffReviewModal × Bool :=
  match selectedFile m with
  | none => (m, false)
  | some _ =>
    let m2 := refresh m newFileList
    let m3 :=
      if m2.fileList.length ≤ m2.selectedIndex ∧ 0 < m2.fileList.length then
        { m2 with selectedIndex := m2.fileList.length - 1 }
      else m2
    (m3, true)

end DiffReviewModal

end PiDiff

namespace PiDiff

/-! ## Exception-tracking semantics of the highlight call (for §5/§7 claims)

The injected highlight function is a synchronous JavaScript function that may
throw.  To reason about error propagation, the renderers' build path is
re-embedded with the highlight call in `Except Unit`: a `.error ()` result is
a thrown exception.  The renderers' own source contains no `try`/`catch`
around the highlight call, so a thrown error propagates out of
`buildRenderedLines` — the embedding below mirrors exactly that. -/

/-- A fallible injected highlight function: `.error ()` models a throw. -/
def HighlightFnE : Type := List Char → List Char → Except Unit (List Char)

namespace InlineDiffView

/-- `renderHunk` with a fallible highlight function: the highlight call on a
context line is the only fallible step and its exception propagates. -/
def renderHunkE (highlightFn : Option HighlightFnE) (filePath : List Char)
    (hunk : DiffLine) (lineNumberWidth : Nat) : Except Unit RenderedLine := do
  let lineNumber := hunk.newLineNumber.getD (hunk.oldLineNumber.getD 0)
  let lineNumStr := padStart (natToChars lineNumber) lineNumberWidth ' '
  let pfx : Char :=
    match hunk.type with
    | .added => '+'
    | .removed => '-'
    | .context => ' '
  let color : List Char :=
    match hunk.type with
    | .added => green
    | .removed => red
    | .context => dim
  let content ←
    match hunk.type, highlightFn with
    | .context, some f => f hunk.content filePath
    | _, _ => pure hunk.content
  pure { content := color ++ lineNumStr ++ [' ', pfx, ' '] ++ content ++ resetSeq,
         rawContent := lineNumStr ++ [' ', pfx, ' '] ++ hunk.content }

/-- The `buildRenderedLines` hunk loop with a fallible highlight function. -/
def buildLoopE (highlightFn : Option HighlightFnE) (filePath : List Char)
    (lineNumberWidth : Nat) : List DiffLine → Option Nat → Except Unit (List RenderedLine)
  | [], _ => pure []
  | hunk :: rest, previousLineNumber => do
    let currentLineNumber : Option Nat :=
      match hunk.newLineNumber with
      | some n => some n
      | none => hunk.oldLineNumber
    let sep : List RenderedLine :=
      match previousLineNumber, currentLineNumber with
      | some p, some c => if p + 1 < c then [createSeparatorLine] else []
      | _, _ => []
    let nextPrevious : Option Nat :=
      match currentLineNumber with
      | some c => some c
      | none => previousLineNumber
    let line ← renderHunkE highlightFn filePath hunk lineNumberWidth
    let rest2 ← buildLoopE highlightFn filePath lineNumberWidth rest nextPrevious
    pure (sep ++ line :: rest2)

/-- `buildRenderedLines` with a fallible highlight function, as run by the
constructor and by `setDiff`: an exception from the highlight call propagates
to the caller. -/
def buildRenderedLinesE (highlightFn : Option HighlightFnE) (diff : FileDiff) :
    Except Unit (List RenderedLine) :=
  if diff.hunks = [] then pure []
  else
    let maxLineNumber := getMaxLineNumber diff
    let lineNumberWidth := (natToChars maxLineNumber).length
    buildLoopE highlightFn diff.filePath lineNumberWidth diff.hunks none

end InlineDiffView

namespace SideBySideDiffView

/-- `renderContextLine` with a fallible highlight function: two independent
highlight calls, each of which can throw and propagate. -/
def renderContextLineE (highlightFn : Option HighlightFnE) (filePath : List Char)
    (hunk : DiffLine) (oldLineNumberWidth newLineNumberWidth : Nat) :
    Except Unit RenderedLine := do
  let oldLineNum := hunk.oldLineNumber.getD 0
  let newLineNum := hunk.newLineNumber.getD 0
  let oldLineNumStr := padStart (natToChars oldLineNum) oldLineNumberWidth ' '
  let newLineNumStr := padStart (natToChars newLineNum) newLineNumberWidth ' '
  let leftContentText ←
    match highlightFn with
    | some f => f hunk.content filePath
    | none => pure hunk.content
  let rightContentText ←
    match highlightFn with
    | some f => f hunk.content filePath
    | none => pure hunk.content
  pure { leftContent := dim ++ oldLineNumStr ++ [' '] ++ leftContentText ++ resetSeq,
         leftRawContent := oldLineNumStr ++ [' '] ++ hunk.content,
         rightContent := dim ++ newLineNumStr ++ [' '] ++ rightContentText ++ resetSeq,
         rightRawContent := newLineNumStr ++ [' '] ++ hunk.content }

/-- `renderHunk` with a fallible highlight function (only the context branch
can throw). -/
def renderHunkE (highlightFn : Option HighlightFnE) (filePath : List Char)
    (hunk : DiffLine) (oldLineNumberWidth newLineNumberWidth : Nat) :
    Except Unit RenderedLine :=
  match hunk.type with
  | .context =>
    renderContextLineE highlightFn filePath hunk oldLineNumberWidth newLineNumberWidth
  | .removed => pure (renderRemovedLine hunk oldLineNumberWidth newLineNumberWidth)
  | .added => pure (renderAddedLine hunk oldLineNumberWidth newLineNumberWidth)

/-- The `buildRenderedLines` hunk loop with a fallible highlight function. -/
def buildLoopE (highlightFn : Option HighlightFnE) (filePath : List Char)
    (oldLineNumberWidth newLineNumberWidth : Nat) :
    List DiffLine → Option Nat → Option Nat → Except Unit (List RenderedLine)
  | [], _, _ => pure []
  | hunk :: rest, previousOldLineNumber, previousNewLineNumber => do
    let currentOldLineNumber := hunk.oldLineNumber
    let currentNewLineNumber := hunk.newLineNumber
    let sep : List RenderedLine :=
      match previousOldLineNumber, currentOldLineNumber with
      | some p, some c => if p + 1 < c then [createSeparatorLine] else []
      | _, _ =>
        match previousNewLineNumber, currentNewLineNumber with
        | some p, some c => if p + 1 < c then [createSeparatorLine] else []
        | _, _ => []
    let nextPreviousOld : Option Nat :=
      match currentOldLineNumber with
      | some c => some c
      | none => previousOldLineNumber
    let nextPreviousNew : Option Nat :=
      match currentNewLineNumber with
      | some c => some c
      | none => previousNewLineNumber
    let line ← renderHunkE highlightFn filePath hunk oldLineNumberWidth newLineNumberWidth
    let rest2 ← buildLoopE highlightFn filePath oldLineNumberWidth newLineNumberWidth rest
      nextPreviousOld nextPreviousNew
    pure (sep ++ line :: rest2)

/-- `buildRenderedLines` with a fallible highlight function. -/
def buildRenderedLinesE (highlightFn : Option HighlightFnE) (diff : FileDiff) :
    Except Unit (List RenderedLine) :=
  if diff.hunks = [] then pure []
  else
    let oldLineNumberWidth := (natToChars (getMaxOldLineNumber diff)).length
    let newLineNumberWidth := (natToChars (getMaxNewLineNumber diff)).length
    buildLoopE highlightFn diff.filePath oldLineNumberWidth newLineNumberWidth
      diff.hunks none none

end SideBySideDiffView

/-- The host-side highlight wrapper built in `index.ts` before injection
(`const highlightFn = (code, filePath) => { const lang =
getLanguageFromPath(filePath); if (!lang) return code; try { return
highlightCode(code, lang, theme) } catch { return code } }`): the `try`/`catch`
around the external `highlightCode` lives here, outside the rendering core,
and the wrapper itself is total — it falls back to the original code on any
failure. -/
def hostHighlightFn {Lang Theme : Type}
    (getLanguageFromPath : List Char → Option Lang)
    (highlightCode : List Char → Lang → Theme → Except Unit (List Char))
    (theme : Theme) : HighlightFn :=
  fun code filePath =>
    match getLanguageFromPath filePath with
    | none => code
    | some lang =>
      match highlightCode code lang theme with
      | .ok highlighted => highlighted
      | .error _ => code

/-- Lift a total highlight function into the fallible type: it never throws. -/
def liftHighlight (f : HighlightFn) : HighlightFnE :=
  fun code filePath => Except.ok (f code filePath)

end PiDiff

namespace PiDiff

/-! ## Reference (spec-side) definitions

These definitions follow the spec's wording and are compared with the
source-derived definitions above; they are the second leg of the
refinement-style claims about separator placement, escape stripping and
column sizing. -/

/-- The spec's "tracked line number" of a hunk for the inline renderer: the
new line number if present, otherwise the old one. -/
def trackedNumber (hunk : DiffLine) : Option Nat :=
  match hunk.newLineNumber with
  | some n => some n
  | none => hunk.oldLineNumber

/-- The spec's evolving "previous number" after consuming a list of hunks,
starting from `p`: the tracked number of the last hunk that has one. -/
def lastTrackedFrom (p : Option Nat) (hunks : List DiffLine) : Option Nat :=
  hunks.foldl
    (fun acc h =>
      match trackedNumber h with
      | some c => some c
      | none => acc) p

/-- Spec-side gap predicate for the inline renderer at hunk position `i`,
with the evolving tracker started at `p`: the previously tracked number (over
the first `i` hunks) and the tracked number of hunk `i` are both defined and
the current exceeds the previous by more than 1. -/
def inlineGapAtFrom (p : Option Nat) (hunks : List DiffLine) (i : Nat) : Bool :=
  match lastTrackedFrom p (hunks.take i), (hunks.get? i).bind trackedNumber with
  | some q, some c => decide (q + 1 < c)
  | _, _ => false

/-- Spec-side gap predicate for the inline renderer at hunk position `i`
(tracker starts undefined). -/
def inlineGapAt (hunks : List DiffLine) (i : Nat) : Bool :=
  inlineGapAtFrom none hunks i

/-- Spec-side count of separator positions for the inline renderer. -/
def inlineGapCount (hunks : List DiffLine) : Nat :=
  (List.range hunks.length).countP (inlineGapAt hunks)

/-- The spec's evolving old-side "previous number", tracked independently. -/
def lastOldFrom (p : Option Nat) (hunks : List DiffLine) : Option Nat :=
  hunks.foldl
    (fun acc h =>
      match h.oldLineNumber with
      | some c => some c
      | none => acc) p

/-- The spec's evolving new-side "previous number", tracked independently. -/
def lastNewFrom (p : Option Nat) (hunks : List DiffLine) : Option Nat :=
  hunks.foldl
    (fun acc h =>
      match h.newLineNumber with
      | some c => some c
      | none => acc) p

/-- Spec-side gap predicate for the side-by-side renderer at hunk position
`i`, with the two independent trackers started at `po`/`pn`: the old-side
numbers (previous over the first `i` hunks, and hunk `i`'s) are both defined
and non-contiguous, or — only when the old-side pair is not both defined —
the new-side numbers are both defined and non-contiguous. -/
def sbsGapAtFrom (po pn : Option Nat) (hunks : List DiffLine) (i : Nat) : Bool :=
  match lastOldFrom po (hunks.take i), (hunks.get? i).bind DiffLine.oldLineNumber with
  | some q, some c => decide (q + 1 < c)
  | _, _ =>
    match lastNewFrom pn (hunks.take i), (hunks.get? i).bind DiffLine.newLineNumber with
    | some q, some c => decide (q + 1 < c)
    | _, _ => false

/-- Spec-side gap predicate for the side-by-side renderer (both trackers
start undefined). -/
def sbsGapAt (hunks : List DiffLine) (i : Nat) : Bool :=
  sbsGapAtFrom none none hunks i

/-- Spec-side count of separator positions for the side-by-side renderer. -/
def sbsGapCount (hunks : List DiffLine) : Nat :=
  (List.range hunks.length).countP (sbsGapAt hunks)

/-- Reference escape-code stripping: the same scan as `padToWidth`'s
visible-length loop, returning the kept characters instead of their count. -/
def stripEscapesLoop : List Char → Bool → List Char
  | [], _ => []
  | c :: rest, inEscape =>
    if c = escChar then stripEscapesLoop rest true
    else if inEscape then
      if c = 'm' then stripEscapesLoop rest false else stripEscapesLoop rest true
    else c :: stripEscapesLoop rest inEscape

/-- Escape-code stripping from the initial non-escape state. -/
def stripEscapes (content : List Char) : List Char := stripEscapesLoop content false

/-- The quantity named by the spec for the inline column width: the maximum
over all old **and** new line numbers appearing in the diff's hunks. -/
def maxAllLineNumbers (diff : FileDiff) : Nat :=
  diff.hunks.foldl
    (fun mx h => Nat.max (Nat.max mx (h.oldLineNumber.getD 0)) (h.newLineNumber.getD 0)) 0

/-- The displayed line number of an inline hunk (`newLineNumber ??
oldLineNumber ?? 0`), the number the amended column-width claim maximises. -/
def displayedNumber (hunk : DiffLine) : Nat :=
  (trackedNumber hunk).getD 0

/-- Maximum of the displayed numbers of a diff's hunks, written as a plain
list maximum. -/
def maxDisplayedNumber (diff : FileDiff) : Nat :=
  (diff.hunks.map displayedNumber).foldr Nat.max 0

/-- Number of separator lines among the inline renderer's built lines. -/
def inlineSepCount (lines : List InlineDiffView.RenderedLine) : Nat :=
  lines.count InlineDiffView.createSeparatorLine

/-- Number of separator lines among the side-by-side renderer's built lines. -/
def sbsSepCount (lines : List SideBySideDiffView.RenderedLine) : Nat :=
  lines.count SideBySideDiffView.createSeparatorLine

/-- Number of inline rendered lines carrying marker `mark` in the marker slot
(the character just after the line-number column). -/
def markerCount (mark : Char) (lineNumberWidth : Nat)
    (lines : List InlineDiffView.RenderedLine) : Nat :=
  lines.countP (fun rl => rl.rawContent.get? (lineNumberWidth + 1) == some mark)

/-- The selection invariant of the review modal: the selected index is 0 on an
empty file list and a valid index otherwise. -/
def SelectionInvariant (m : DiffReviewModal) : Prop :=
  (m.fileList = [] → m.selectedIndex = 0) ∧
  (m.fileList ≠ [] → m.selectedIndex < m.fileList.length)

instance (m : DiffReviewModal) : Decidable (SelectionInvariant m) := by
  unfold SelectionInvariant; infer_instance

end PiDiff

namespace PiDiff

/-- The inline renderer's fixed line-number column width (`inline-view.ts`
lines 75–76): the digit count of `getMaxLineNumber`. -/
def inlineLineNumberWidth (diff : FileDiff) : Nat :=
  (natToChars (InlineDiffView.getMaxLineNumber diff)).length

/-! ## Concrete sample diffs used by examples, witnesses and counterexamples -/

/-- A context diff line with both numbers. -/
def ctxLine (o n : Nat) (s : List Char) : DiffLine :=
  { type := .context, content := s, oldLineNumber := some o, newLineNumber := some n }

/-- An added diff line with only a new number. -/
def addLine (n : Nat) (s : List Char) : DiffLine :=
  { type := .added, content := s, oldLineNumber := none, newLineNumber := some n }

/-- A removed diff line with only an old number. -/
def remLine (o : Nat) (s : List Char) : DiffLine :=
  { type := .removed, content := s, oldLineNumber := some o, newLineNumber := none }

/-- The spec's worked example diff: `[context L1/L1, removed L2/—, added —/L2,
added —/L3, context L3/L4]`. -/
def exampleDiff : FileDiff :=
  { filePath := ['f', '.', 't', 's'],
    hunks := [ctxLine 1 1 ['a'], remLine 2 ['b'], addLine 2 ['c'],
              addLine 3 ['d'], ctxLine 3 4 ['e']] }

/-- Two hunks whose new line numbers jump from 2 to 10. -/
def jumpDiff : FileDiff :=
  { filePath := ['f', '.', 't', 's'],
    hunks := [addLine 2 ['x'], addLine 10 ['y']] }

/-- A single context hunk whose old number (10) is larger than its new
number (3). -/
def skewedContextDiff : FileDiff :=
  { filePath := ['f', '.', 't', 's'],
    hunks := [ctxLine 10 3 ['z']] }

/-- A removal at old line 1 followed by an addition at new line 10: the
inline tracker sees a 1 → 10 jump, while the side-by-side trackers never see
two defined numbers on the same side. -/
def asymmetryDiff : FileDiff :=
  { filePath := ['f', '.', 't', 's'],
    hunks := [remLine 1 ['x'], addLine 10 ['y']] }

/-- A sample inline view over `exampleDiff` (5 rendered lines). -/
def sampleInlineState : InlineDiffView.State := InlineDiffView.ofDiff none exampleDiff

/-- A sample side-by-side view over `exampleDiff` (5 rendered lines). -/
def sampleSbsState : SideBySideDiffView.State := SideBySideDiffView.ofDiff none exampleDiff

/-- A sample controller over `exampleDiff` (inline mode). -/
def sampleController : DiffViewController := DiffViewController.ofDiff none exampleDiff

/-- A sample modal file entry. -/
def sampleEntry (c : Char) : ModalFileEntry :=
  { path := [c], additions := 1, deletions := 0, isNewFile := false }

/-- The first rendered line of the inline rendering of `exampleDiff`. -/
def sampleRenderedLine : InlineDiffView.RenderedLine :=
  InlineDiffView.renderHunk none exampleDiff.filePath (ctxLine 1 1 ['a'])
    (inlineLineNumberWidth exampleDiff)

/-- A sample modal state with three files, the middle one selected. -/
def sampleModal : DiffReviewModal :=
  { selectedIndex := 1, fileList := [sampleEntry 'a', sampleEntry 'b', sampleEntry 'c'] }

end PiDiff

namespace PiDiff

/-! ## Small combinators naming the loop's tracker update and gap test -/

/-- The inline loop's tracker update: the current tracked number when
defined, otherwise the previous one. -/
def stepTracked (prev : Option Nat) (hunk : DiffLine) : Option Nat :=
  match trackedNumber hunk with
  | some c => some c
  | none => prev

/-- The gap test on a previous/current pair of optional line numbers: both
defined and the current is more than 1 beyond the previous. -/
def gapIndicator (prev cur : Option Nat) : Bool :=
  match prev, cur with
  | some p, some c => decide (p + 1 < c)
  | _, _ => false

/-- The separator lines the inline loop pushes for a previous/current pair. -/
def sepListOf (prev cur : Option Nat) : List InlineDiffView.RenderedLine :=
  match prev, cur with
  | some p, some c =>
    if p + 1 < c then [InlineDiffView.createSeparatorLine] else []
  | _, _ => []

/-- The side-by-side loop's old-side tracker update. -/
def stepOld (prev : Option Nat) (hunk : DiffLine) : Option Nat :=
  match hunk.oldLineNumber with
  | some c => some c
  | none => prev

/-- The side-by-side loop's new-side tracker update. -/
def stepNew (prev : Option Nat) (hunk : DiffLine) : Option Nat :=
  match hunk.newLineNumber with
  | some c => some c
  | none => prev

/-- The side-by-side gap test: the old-side pair when both defined, otherwise
the new-side pair. -/
def sbsGapIndicator (po co pn cn : Option Nat) : Bool :=
  match po, co with
  | some p, some c => decide (p + 1 < c)
  | _, _ =>
    match pn, cn with
    | some p, some c => decide (p + 1 < c)
    | _, _ => false

/-- The marker character of an inline rendered line by tag (`+`, `-`, or a
blank). -/
def markerChar (t : DiffLineType) : Char :=
  match t with
  | .added => '+'
  | .removed => '-'
  | .context => ' '

/-- The ANSI color an inline rendered line starts with, by tag. -/
def colorOf (t : DiffLineType) : List Char :=
  match t with
  | .added => InlineDiffView.green
  | .removed => InlineDiffView.red
  | .context => InlineDiffView.dim

/-- The separator lines the side-by-side loop pushes. -/
def sbsSepListOf (po co pn cn : Option Nat) : List SideBySideDiffView.RenderedLine :=
  match po, co with
  | some p, some c =>
    if p + 1 < c then [SideBySideDiffView.createSeparatorLine] else []
  | _, _ =>
    match pn, cn with
    | some p, some c =>
      if p + 1 < c then [SideBySideDiffView.createSeparatorLine] else []
    | _, _ => []

end PiDiff

namespace PiDiff

theorem natToCharsFuel_irrel (f1 : Nat) : ∀ f2 n : Nat, n ≤ f1 → n ≤ f2 →
    natToCharsFuel f1 n = natToCharsFuel f2 n := by
  induction f1 with
  | zero =>
    intro f2 n h1 h2
    have hn : n = 0 := by omega
    subst hn
    cases f2 with
    | zero => rfl
    | succ j => simp [natToCharsFuel]
  | succ k ih =>
    intro f2 n h1 h2
    cases f2 with
    | zero =>
      have hn : n = 0 := by omega
      subst hn
      simp [natToCharsFuel]
    | succ j =>
      simp only [natToCharsFuel]
      by_cases hn : n < 10
      · simp [hn]
      · have hdiv : n / 10 < n := Nat.div_lt_self (by omega) (by omega)
        simp only [hn, if_false]
        rw [ih j (n / 10) (by omega) (by omega)]

theorem natToChars_eq (n : Nat) :
    natToChars n
      = if n < 10 then [digitChar n]
        else natToChars (n / 10) ++ [digitChar (n % 10)] := by
  unfold natToChars
  cases n with
  | zero => simp [natToCharsFuel]
  | succ m =>
    simp only [natToCharsFuel]
    by_cases hn : m + 1 < 10
    · simp [hn]
    · have hdiv : (m + 1) / 10 < m + 1 := Nat.div_lt_self (by omega) (by omega)
      simp only [hn, if_false]
      rw [natToCharsFuel_irrel m ((m + 1) / 10) ((m + 1) / 10) (by omega) (by omega)]

/-- Claim C1: for a view whose rendering has `N` total lines and a visible
height `h`, `scrollDown` clamps the offset into `[0, N]` (and `scrollUp`
keeps it there), `render` re-clamps the offset into `[0, max(0, N - h)]` and
returns exactly `min h N` rows, and `scrollDown` by at least `N` followed by
`render` leaves the offset at exactly `max(0, N - h)`; all of this for both
the inline and the side-by-side renderer. -/
theorem scroll_clamp_render_window
    (s : InlineDiffView.State) (t : SideBySideDiffView.State) (n w h : Nat) :
    ((InlineDiffView.scrollDown s n).scrollOffset ≤ s.renderedLines.length ∧
     (s.scrollOffset ≤ s.renderedLines.length →
       (InlineDiffView.scrollUp s n).scrollOffset ≤ s.renderedLines.length) ∧
     (InlineDiffView.render s w h).1.scrollOffset
       = Nat.min s.scrollOffset (Nat.max 0 (s.renderedLines.length - h)) ∧
     ((InlineDiffView.render s w h).2).length = Nat.min h s.renderedLines.length ∧
     (s.renderedLines.length ≤ n →
       (InlineDiffView.render (InlineDiffView.scrollDown s n) w h).1.scrollOffset
         = Nat.max 0 (s.renderedLines.length - h))) ∧
    ((SideBySideDiffView.scrollDown t n).scrollOffset ≤ t.renderedLines.length ∧
     (t.scrollOffset ≤ t.renderedLines.length →
       (SideBySideDiffView.scrollUp t n).scrollOffset ≤ t.renderedLines.length) ∧
     (SideBySideDiffView.render t w h).1.scrollOffset
       = Nat.min t.scrollOffset (Nat.max 0 (t.renderedLines.length - h)) ∧
     ((SideBySideDiffView.render t w h).2).length = Nat.min h t.renderedLines.length ∧
     (t.renderedLines.length ≤ n →
       (SideBySideDiffView.render (SideBySideDiffView.scrollDown t n) w h).1.scrollOffset
         = Nat.max 0 (t.renderedLines.length - h))) := by
  constructor
  · refine ⟨?_, fun hs => ?_, ?_, ?_, fun hn => ?_⟩
    · simp [InlineDiffView.scrollDown, Nat.min_def, Nat.max_def] <;> split_ifs <;> omega
    · simp [InlineDiffView.scrollUp] <;> omega
    · simp [InlineDiffView.render, Nat.min_def, Nat.max_def] <;> split_ifs <;> omega
    · simp [InlineDiffView.render, Nat.min_def, Nat.max_def] <;> split_ifs <;> omega
    · simp [InlineDiffView.render, InlineDiffView.scrollDown, Nat.min_def, Nat.max_def] <;>
        split_ifs <;> omega
  · refine ⟨?_, fun hs => ?_, ?_, ?_, fun hn => ?_⟩
    · simp [SideBySideDiffView.scrollDown, Nat.min_def, Nat.max_def] <;> split_ifs <;> omega
    · simp [SideBySideDiffView.scrollUp] <;> omega
    · simp [SideBySideDiffView.render, Nat.min_def, Nat.max_def] <;> split_ifs <;> omega
    · simp [SideBySideDiffView.render, Nat.min_def, Nat.max_def] <;> split_ifs <;> omega
    · simp [SideBySideDiffView.render, SideBySideDiffView.scrollDown, Nat.min_def,
        Nat.max_def] <;> split_ifs <;> omega

end PiDiff

namespace PiDiff

/-- Witness for claim C1 at concrete states over `exampleDiff` (5 rendered
lines), with `n = 1000`, `w = 80`, `h = 2`: the hypotheses (a valid starting
offset, and a scroll amount at least the total line count) hold and the
clamped results are as claimed. -/
theorem scroll_clamp_render_window_witness :
    (InlineDiffView.scrollUp sampleInlineState 1000).scrollOffset
        ≤ sampleInlineState.renderedLines.length ∧
    (InlineDiffView.render
        (InlineDiffView.scrollDown sampleInlineState 1000) 80 2).1.scrollOffset
      = Nat.max 0 (sampleInlineState.renderedLines.length - 2) ∧
    (SideBySideDiffView.scrollUp sampleSbsState 1000).scrollOffset
        ≤ sampleSbsState.renderedLines.length ∧
    (SideBySideDiffView.render
        (SideBySideDiffView.scrollDown sampleSbsState 1000) 80 2).1.scrollOffset
      = Nat.max 0 (sampleSbsState.renderedLines.length - 2) :=
  have h := scroll_clamp_render_window sampleInlineState sampleSbsState 1000 80 2
  ⟨h.1.2.1 (by decide), h.1.2.2.2.2 (by decide),
   h.2.2.1 (by decide), h.2.2.2.2.2 (by decide)⟩

end PiDiff

namespace PiDiff

/-- Claim C4: `canUseSideBySide w` holds iff `w ≥ 120`; from inline,
`toggleViewMode w` switches to side-by-side and returns true iff `w ≥ 120`
and otherwise returns false leaving the controller unchanged; from
side-by-side it always switches to inline and returns true; every successful
switch — including `setViewMode` with a different mode but not with the same
mode — resets both renderers' scroll offsets to 0. -/
theorem controller_mode_switching
    (c : DiffViewController) (w : Nat) (m : ViewMode) :
    (DiffViewController.canUseSideBySide w = true ↔ 120 ≤ w) ∧
    (c.viewMode = .inline → 120 ≤ w →
      (DiffViewController.toggleViewMode c w).1.viewMode = .sideBySide ∧
      (DiffViewController.toggleViewMode c w).2 = true ∧
      (DiffViewController.toggleViewMode c w).1.inlineView.scrollOffset = 0 ∧
      (DiffViewController.toggleViewMode c w).1.sideBySideView.scrollOffset = 0) ∧
    (c.viewMode = .inline → w < 120 →
      (DiffViewController.toggleViewMode c w).2 = false ∧
      (DiffViewController.toggleViewMode c w).1 = c) ∧
    (c.viewMode = .sideBySide →
      (DiffViewController.toggleViewMode c w).1.viewMode = .inline ∧
      (DiffViewController.toggleViewMode c w).2 = true ∧
      (DiffViewController.toggleViewMode c w).1.inlineView.scrollOffset = 0 ∧
      (DiffViewController.toggleViewMode c w).1.sideBySideView.scrollOffset = 0) ∧
    (c.viewMode ≠ m →
      (DiffViewController.setViewMode c m).viewMode = m ∧
      (DiffViewController.setViewMode c m).inlineView.scrollOffset = 0 ∧
      (DiffViewController.setViewMode c m).sideBySideView.scrollOffset = 0) ∧
    (c.viewMode = m → DiffViewController.setViewMode c m = c) := by
  refine ⟨?_, fun h1 h2 => ?_, fun h1 h2 => ?_, fun h1 => ?_, fun h1 => ?_, fun h1 => ?_⟩
  · simp [DiffViewController.canUseSideBySide]
  · simp [DiffViewController.toggleViewMode, DiffViewController.canUseSideBySide, h1, h2,
      DiffViewController.resetScroll, InlineDiffView.scrollToTop, SideBySideDiffView.scrollToTop]
  · simp [DiffViewController.toggleViewMode, DiffViewController.canUseSideBySide, h1,
      Nat.not_le.mpr h2]
  · simp [DiffViewController.toggleViewMode, h1, DiffViewController.resetScroll,
      InlineDiffView.scrollToTop, SideBySideDiffView.scrollToTop]
  · simp [DiffViewController.setViewMode, h1, DiffViewController.resetScroll,
      InlineDiffView.scrollToTop, SideBySideDiffView.scrollToTop]
  · simp [DiffViewController.setViewMode, h1]

/-- Witness for claim C4 at `sampleController` (inline mode) with widths 130
and 80 and forced modes `side-by-side` and `inline`. -/
theorem controller_mode_switching_witness :
    ((DiffViewController.toggleViewMode sampleController 130).1.viewMode
        = .sideBySide ∧
     (DiffViewController.toggleViewMode sampleController 130).2 = true ∧
     (DiffViewController.toggleViewMode sampleController 130).1.inlineView.scrollOffset = 0 ∧
     (DiffViewController.toggleViewMode sampleController 130).1.sideBySideView.scrollOffset
        = 0) ∧
    ((DiffViewController.toggleViewMode sampleController 80).2 = false ∧
     (DiffViewController.toggleViewMode sampleController 80).1 = sampleController) ∧
    ((DiffViewController.setViewMode sampleController .sideBySide).viewMode = .sideBySide ∧
     (DiffViewController.setViewMode sampleController .sideBySide).inlineView.scrollOffset
        = 0 ∧
     (DiffViewController.setViewMode
        sampleController .sideBySide).sideBySideView.scrollOffset = 0) ∧
    DiffViewController.setViewMode sampleController .inline = sampleController :=
  have hA := controller_mode_switching sampleController 130 ViewMode.sideBySide
  have hB := controller_mode_switching sampleController 80 ViewMode.inline
  ⟨hA.2.1 rfl (by omega), hB.2.2.1 rfl (by omega),
   hA.2.2.2.2.1 (by decide), hB.2.2.2.2.2 rfl⟩

end PiDiff

namespace PiDiff

/-- Claim C10: every modal operation preserves the selection invariant
(`selectedIndex = 0` on an empty file list, otherwise a valid index), and
`selectNext`/`selectPrevious` wrap around modulo the non-empty list's
length. -/
theorem modal_selection_spec
    (m : DiffReviewModal) (i : Nat) (l : List ModalFileEntry)
    (hm : SelectionInvariant m) :
    SelectionInvariant (DiffReviewModal.selectNext m) ∧
    SelectionInvariant (DiffReviewModal.selectPrevious m) ∧
    SelectionInvariant (DiffReviewModal.selectIndex m i) ∧
    SelectionInvariant (DiffReviewModal.refresh m l) ∧
    SelectionInvariant (DiffReviewModal.dismissSelected m l).1 ∧
    (m.fileList ≠ [] →
      (DiffReviewModal.selectNext m).selectedIndex
        = (m.selectedIndex + 1) % m.fileList.length) ∧
    (m.fileList ≠ [] →
      (DiffReviewModal.selectPrevious m).selectedIndex
        = (m.selectedIndex + m.fileList.length - 1) % m.fileList.length) := by
  obtain ⟨hm0, hm1⟩ := hm
  have hRefresh : SelectionInvariant (DiffReviewModal.refresh m l) := by
    unfold DiffReviewModal.refresh SelectionInvariant
    dsimp only
    split_ifs with h1 h2
    · refine ⟨fun _ => rfl, fun hne => ?_⟩
      dsimp only at hne
      exact absurd (List.length_pos.mpr hne) (by omega)
    · refine ⟨fun he => ?_, fun _ => by dsimp only; omega⟩
      dsimp only at he
      exact absurd he (by simpa using h1)
    · refine ⟨fun he => ?_, fun _ => by dsimp only; omega⟩
      dsimp only at he
      exact absurd he (by simpa using h1)
  refine ⟨?_, ?_, ?_, hRefresh, ?_, fun hne => ?_, fun hne => ?_⟩
  · unfold DiffReviewModal.selectNext SelectionInvariant
    split_ifs with h1
    · exact ⟨hm0, hm1⟩
    · refine ⟨fun he => ?_, fun _ => by dsimp only; exact Nat.mod_lt _ (by omega)⟩
      dsimp only at he
      exact absurd he (by simpa using h1)
  · unfold DiffReviewModal.selectPrevious SelectionInvariant
    split_ifs with h1 h0
    · exact ⟨hm0, hm1⟩
    · refine ⟨fun he => ?_, fun _ => by dsimp only; omega⟩
      dsimp only at he
      exact absurd he (by simpa using h1)
    · have hlt : m.selectedIndex < m.fileList.length :=
        hm1 (fun he => h1 (by simp [he]))
      refine ⟨fun he => ?_, fun _ => by dsimp only; omega⟩
      dsimp only at he
      exact absurd he (by simpa using h1)
  · unfold DiffReviewModal.selectIndex SelectionInvariant
    split_ifs with h1
    · refine ⟨fun _ => rfl, fun hne => ?_⟩
      dsimp only at hne
      exact absurd (List.length_pos.mpr hne) (by omega)
    · refine ⟨fun he => ?_, fun _ => ?_⟩
      · dsimp only at he
        exact absurd he (by simpa using h1)
      · dsimp only
        have h2 : Nat.max 0 (Nat.min i (m.fileList.length - 1))
            ≤ m.fileList.length - 1 :=
          Nat.max_le.mpr ⟨Nat.zero_le _, Nat.min_le_right _ _⟩
        omega
  · unfold DiffReviewModal.dismissSelected
    cases hsel : DiffReviewModal.selectedFile m with
    | none => exact ⟨hm0, hm1⟩
    | some p =>
      dsimp only
      obtain ⟨r0, r1⟩ := hRefresh
      split_ifs with hc
      · obtain ⟨hc1, hc2⟩ := hc
        refine ⟨fun he => ?_, fun _ => by dsimp only; omega⟩
        dsimp only at he
        rw [he] at hc2; simp at hc2
      · exact ⟨r0, r1⟩
  · have h1 : ¬ m.fileList.length = 0 := by
      have := List.length_pos.mpr hne; omega
    unfold DiffReviewModal.selectNext
    rw [if_neg h1]
  · have h1 : ¬ m.fileList.length = 0 := by
      have := List.length_pos.mpr hne; omega
    have hlt : m.selectedIndex < m.fileList.length := hm1 hne
    unfold DiffReviewModal.selectPrevious
    rw [if_neg h1]
    dsimp only
    split_ifs with h0
    · rw [h0]
      have h2 : 0 + m.fileList.length - 1 = m.fileList.length - 1 := by omega
      rw [h2, Nat.mod_eq_of_lt (by omega)]
    · have h2 : m.selectedIndex + m.fileList.length - 1
          = (m.selectedIndex - 1) + m.fileList.length := by omega
      rw [h2, Nat.add_mod_right, Nat.mod_eq_of_lt (by omega)]

/-- Witness for claim C10 at `sampleModal` (three files, index 1): the
invariant holds before and after each operation, and both wrap equations are
checked. -/
theorem modal_selection_spec_witness :
    SelectionInvariant sampleModal ∧
    SelectionInvariant (DiffReviewModal.selectNext sampleModal) ∧
    SelectionInvariant (DiffReviewModal.selectPrevious sampleModal) ∧
    SelectionInvariant (DiffReviewModal.selectIndex sampleModal 7) ∧
    SelectionInvariant (DiffReviewModal.refresh sampleModal []) ∧
    SelectionInvariant (DiffReviewModal.dismissSelected sampleModal [sampleEntry 'a']).1 ∧
    (DiffReviewModal.selectNext sampleModal).selectedIndex
      = (sampleModal.selectedIndex + 1) % sampleModal.fileList.length ∧
    (DiffReviewModal.selectPrevious sampleModal).selectedIndex
      = (sampleModal.selectedIndex + sampleModal.fileList.length - 1)
          % sampleModal.fileList.length :=
  have h := modal_selection_spec sampleModal 7 [] (by decide)
  have h2 := modal_selection_spec sampleModal 7 [sampleEntry 'a'] (by decide)
  ⟨by decide, h.1, h.2.1, h.2.2.1, h.2.2.2.1, h2.2.2.2.2.1,
   h.2.2.2.2.2.1 (by decide), h.2.2.2.2.2.2 (by decide)⟩

end PiDiff

namespace PiDiff

theorem renderHunk_ne_separator (hl : Option HighlightFn) (fp : List Char)
    (h : DiffLine) (w : Nat) :
    InlineDiffView.renderHunk hl fp h w ≠ InlineDiffView.createSeparatorLine := by
  intro he
  have hmem : ' ' ∈ (InlineDiffView.renderHunk hl fp h w).rawContent := by
    simp [InlineDiffView.renderHunk]
  rw [he] at hmem
  simp [InlineDiffView.createSeparatorLine] at hmem

theorem count_sepListOf (p c : Option Nat) :
    List.count InlineDiffView.createSeparatorLine (sepListOf p c)
      = if gapIndicator p c = true then 1 else 0 := by
  rcases p with _ | p <;> rcases c with _ | c <;>
    simp [sepListOf, gapIndicator] <;> split_ifs <;> simp_all

theorem length_sepListOf (p c : Option Nat) :
    (sepListOf p c).length = if gapIndicator p c = true then 1 else 0 := by
  rcases p with _ | p <;> rcases c with _ | c <;>
    simp [sepListOf, gapIndicator] <;> split_ifs <;> simp_all

theorem inline_buildLoop_count (hl : Option HighlightFn) (fp : List Char) (w : Nat)
    (hunks : List DiffLine) (prev : Option Nat) :
    inlineSepCount (InlineDiffView.buildLoop hl fp w hunks prev)
      = (List.range hunks.length).countP (inlineGapAtFrom prev hunks) := by
  induction hunks generalizing prev with
  | nil => simp [InlineDiffView.buildLoop, inlineSepCount]
  | cons h t ih =>
    simp only [inlineSepCount] at ih ⊢
    have hstep : InlineDiffView.buildLoop hl fp w (h :: t) prev
        = sepListOf prev (trackedNumber h) ++ InlineDiffView.renderHunk hl fp h w ::
            InlineDiffView.buildLoop hl fp w t (stepTracked prev h) := rfl
    have hsucc : (inlineGapAtFrom prev (h :: t)) ∘ Nat.succ
        = inlineGapAtFrom (stepTracked prev h) t := funext fun i => rfl
    have hzero : inlineGapAtFrom prev (h :: t) 0
        = gapIndicator prev (trackedNumber h) := rfl
    have hrne : (InlineDiffView.renderHunk hl fp h w
        == InlineDiffView.createSeparatorLine) = false := by
      simpa using renderHunk_ne_separator hl fp h w
    rw [hstep, List.length_cons, List.range_succ_eq_map, List.countP_cons,
      List.countP_map, hsucc, hzero, List.count_append, List.count_cons, hrne,
      ih, count_sepListOf]
    simp only [Bool.false_eq_true, if_false]
    omega

theorem inline_buildLoop_length (hl : Option HighlightFn) (fp : List Char) (w : Nat)
    (hunks : List DiffLine) (prev : Option Nat) :
    (InlineDiffView.buildLoop hl fp w hunks prev).length
      = hunks.length + (List.range hunks.length).countP (inlineGapAtFrom prev hunks) := by
  induction hunks generalizing prev with
  | nil => simp [InlineDiffView.buildLoop]
  | cons h t ih =>
    have hstep : InlineDiffView.buildLoop hl fp w (h :: t) prev
        = sepListOf prev (trackedNumber h) ++ InlineDiffView.renderHunk hl fp h w ::
            InlineDiffView.buildLoop hl fp w t (stepTracked prev h) := rfl
    have hsucc : (inlineGapAtFrom prev (h :: t)) ∘ Nat.succ
        = inlineGapAtFrom (stepTracked prev h) t := funext fun i => rfl
    have hzero : inlineGapAtFrom prev (h :: t) 0
        = gapIndicator prev (trackedNumber h) := rfl
    rw [hstep, List.length_cons, List.range_succ_eq_map, List.countP_cons,
      List.countP_map, hsucc, hzero, List.length_append, List.length_cons,
      ih, length_sepListOf]
    omega

/-- Claim C2: in the inline renderer, exactly one separator line appears per
hunk position whose evolving tracked number (new if present, else old) jumps
by more than 1 — `inlineGapCount`/`inlineGapAtFrom` spell out the spec's
policy — so the built lines number `hunks + gaps`; and the spec's example of
two hunks with new numbers 2 and 10 yields exactly 3 lines whose middle one
is the separator. -/
theorem inline_separator_policy (hl : Option HighlightFn) (d : FileDiff) :
    inlineSepCount (InlineDiffView.buildRenderedLines hl d) = inlineGapCount d.hunks ∧
    (InlineDiffView.buildRenderedLines hl d).length
      = d.hunks.length + inlineGapCount d.hunks ∧
    (InlineDiffView.buildRenderedLines none jumpDiff).length = 3 ∧
    inlineSepCount (InlineDiffView.buildRenderedLines none jumpDiff) = 1 ∧
    (InlineDiffView.buildRenderedLines none jumpDiff).get? 1
      = some InlineDiffView.createSeparatorLine := by
  refine ⟨?_, ?_, by decide, by decide, by decide⟩
  · unfold InlineDiffView.buildRenderedLines
    split_ifs with h
    · simp [inlineSepCount, inlineGapCount, h]
    · rw [inline_buildLoop_count]
      rfl
  · unfold InlineDiffView.buildRenderedLines
    split_ifs with h
    · simp [inlineGapCount, h]
    · rw [inline_buildLoop_length]
      rfl

end PiDiff

namespace PiDiff

theorem sbs_renderHunk_ne_separator (hl : Option HighlightFn) (fp : List Char)
    (h : DiffLine) (wo wn : Nat) :
    SideBySideDiffView.renderHunk hl fp h wo wn
      ≠ SideBySideDiffView.createSeparatorLine := by
  intro he
  have hmem : ' ' ∈ (SideBySideDiffView.renderHunk hl fp h wo wn).leftRawContent := by
    rcases h with ⟨ty, cont, o, n⟩
    rcases ty <;>
      simp [SideBySideDiffView.renderHunk, SideBySideDiffView.renderContextLine,
        SideBySideDiffView.renderRemovedLine, SideBySideDiffView.renderAddedLine]
  rw [he] at hmem
  simp [SideBySideDiffView.createSeparatorLine] at hmem

theorem count_sbsSepListOf (po co pn cn : Option Nat) :
    List.count SideBySideDiffView.createSeparatorLine (sbsSepListOf po co pn cn)
      = if sbsGapIndicator po co pn cn = true then 1 else 0 := by
  rcases po with _ | p <;> rcases co with _ | c <;>
    rcases pn with _ | q <;> rcases cn with _ | e <;>
    simp [sbsSepListOf, sbsGapIndicator] <;> split_ifs <;> simp_all

theorem length_sbsSepListOf (po co pn cn : Option Nat) :
    (sbsSepListOf po co pn cn).length
      = if sbsGapIndicator po co pn cn = true then 1 else 0 := by
  rcases po with _ | p <;> rcases co with _ | c <;>
    rcases pn with _ | q <;> rcases cn with _ | e <;>
    simp [sbsSepListOf, sbsGapIndicator] <;> split_ifs <;> simp_all

theorem sbs_buildLoop_count (hl : Option HighlightFn) (fp : List Char) (wo wn : Nat)
    (hunks : List DiffLine) (po pn : Option Nat) :
    sbsSepCount (SideBySideDiffView.buildLoop hl fp wo wn hunks po pn)
      = (List.range hunks.length).countP (sbsGapAtFrom po pn hunks) := by
  induction hunks generalizing po pn with
  | nil => simp [SideBySideDiffView.buildLoop, sbsSepCount]
  | cons h t ih =>
    simp only [sbsSepCount] at ih ⊢
    have hstep : SideBySideDiffView.buildLoop hl fp wo wn (h :: t) po pn
        = sbsSepListOf po h.oldLineNumber pn h.newLineNumber ++
            SideBySideDiffView.renderHunk hl fp h wo wn ::
            SideBySideDiffView.buildLoop hl fp wo wn t (stepOld po h) (stepNew pn h) := rfl
    have hsucc : (sbsGapAtFrom po pn (h :: t)) ∘ Nat.succ
        = sbsGapAtFrom (stepOld po h) (stepNew pn h) t := funext fun i => rfl
    have hzero : sbsGapAtFrom po pn (h :: t) 0
        = sbsGapIndicator po h.oldLineNumber pn h.newLineNumber := rfl
    have hrne : (SideBySideDiffView.renderHunk hl fp h wo wn
        == SideBySideDiffView.createSeparatorLine) = false := by
      simpa using sbs_renderHunk_ne_separator hl fp h wo wn
    rw [hstep, List.length_cons, List.range_succ_eq_map, List.countP_cons,
      List.countP_map, hsucc, hzero, List.count_append, List.count_cons, hrne,
      ih, count_sbsSepListOf]
    simp only [Bool.false_eq_true, if_false]
    omega

theorem sbs_buildLoop_length (hl : Option HighlightFn) (fp : List Char) (wo wn : Nat)
    (hunks : List DiffLine) (po pn : Option Nat) :
    (SideBySideDiffView.buildLoop hl fp wo wn hunks po pn).length
      = hunks.length + (List.range hunks.length).countP (sbsGapAtFrom po pn hunks) := by
  induction hunks generalizing po pn with
  | nil => simp [SideBySideDiffView.buildLoop]
  | cons h t ih =>
    have hstep : SideBySideDiffView.buildLoop hl fp wo wn (h :: t) po pn
        = sbsSepListOf po h.oldLineNumber pn h.newLineNumber ++
            SideBySideDiffView.renderHunk hl fp h wo wn ::
            SideBySideDiffView.buildLoop hl fp wo wn t (stepOld po h) (stepNew pn h) := rfl
    have hsucc : (sbsGapAtFrom po pn (h :: t)) ∘ Nat.succ
        = sbsGapAtFrom (stepOld po h) (stepNew pn h) t := funext fun i => rfl
    have hzero : sbsGapAtFrom po pn (h :: t) 0
        = sbsGapIndicator po h.oldLineNumber pn h.newLineNumber := rfl
    rw [hstep, List.length_cons, List.range_succ_eq_map, List.countP_cons,
      List.countP_map, hsucc, hzero, List.length_append, List.length_cons,
      ih, length_sbsSepListOf]
    omega

/-- Claim C3: in the side-by-side renderer a separator appears at exactly the
hunk positions where the independently tracked old-side pair is defined and
non-contiguous, or — when the old-side pair is not both defined — the
new-side pair is defined and non-contiguous (`sbsGapAtFrom`/`sbsGapIndicator`
spell out the old-preferred policy, restated below in or/and form); the count
of built lines is `hunks + gaps`; and on `asymmetryDiff` the inline renderer
inserts a separator while the side-by-side renderer does not — the two
policies really differ. -/
theorem sbs_separator_policy (hl : Option HighlightFn) (d : FileDiff) :
    sbsSepCount (SideBySideDiffView.buildRenderedLines hl d) = sbsGapCount d.hunks ∧
    (SideBySideDiffView.buildRenderedLines hl d).length
      = d.hunks.length + sbsGapCount d.hunks ∧
    (∀ po co pn cn : Option Nat,
      sbsGapIndicator po co pn cn
        = (gapIndicator po co || (!(po.isSome && co.isSome) && gapIndicator pn cn))) ∧
    inlineSepCount (InlineDiffView.buildRenderedLines none asymmetryDiff) = 1 ∧
    sbsSepCount (SideBySideDiffView.buildRenderedLines none asymmetryDiff) = 0 := by
  refine ⟨?_, ?_, ?_, by decide, by decide⟩
  · unfold SideBySideDiffView.buildRenderedLines
    split_ifs with h
    · simp [sbsSepCount, sbsGapCount, h]
    · rw [sbs_buildLoop_count]
      rfl
  · unfold SideBySideDiffView.buildRenderedLines
    split_ifs with h
    · simp [sbsGapCount, h]
    · rw [sbs_buildLoop_length]
      rfl
  · intro po co pn cn
    rcases po with _ | p <;> rcases co with _ | c <;>
      rcases pn with _ | q <;> rcases cn with _ | e <;>
      simp [sbsGapIndicator, gapIndicator]

end PiDiff

namespace PiDiff

theorem truncLoop_append (width : Nat) (l : List Char) :
    ∀ (n : Nat) (a b : List Char) (inE : Bool) (seq : List Char),
      truncLoop width l n (a ++ b) inE seq = a ++ truncLoop width l n b inE seq := by
  induction l with
  | nil => intro n a b inE seq; simp [truncLoop]
  | cons c rest ih =>
    intro n a b inE seq
    simp only [truncLoop]
    split_ifs with h1 h2 h3 h4
    · exact ih n a b true [c]
    · rw [List.append_assoc]
      exact ih n a (b ++ (seq ++ [c])) false []
    · exact ih n a b true (seq ++ [c])
    · rfl
    · rw [List.append_assoc]
      exact ih (n + 1) a (b ++ [c]) inE seq

theorem visibleLenLoop_escape_run (mids : List Char) :
    ∀ r : List Char, 'm' ∉ mids →
      visibleLenLoop (mids ++ 'm' :: r) true = visibleLenLoop r false := by
  induction mids with
  | nil =>
    intro r _
    have hme : ¬ ('m' = escChar) := by decide
    simp [visibleLenLoop, hme]
  | cons c cs ih =>
    intro r hm
    have hc : c ≠ 'm' := fun h => hm (by simp [h])
    have hcs : 'm' ∉ cs := fun h => hm (by simp [h])
    simp only [List.cons_append, visibleLenLoop, hc, if_false]
    split_ifs <;> exact ih r hcs

theorem visibleLenLoop_append_reset (a : List Char) :
    ∀ st : Bool, visibleLenLoop (a ++ resetSeq) st = visibleLenLoop a st := by
  induction a with
  | nil => intro st; cases st <;> decide
  | cons c cs ih =>
    intro st
    simp only [List.cons_append, visibleLenLoop]
    split_ifs <;> simp [ih]

theorem visLen_truncLoop (width : Nat) (l : List Char) :
    ∀ (n : Nat) (inE : Bool) (seq : List Char),
      (inE = false → seq = []) →
      (inE = true → ∃ mids, seq = escChar :: mids ∧ 'm' ∉ mids) →
      visibleLenLoop (truncLoop width l n [] inE seq) false ≤ width - n := by
  induction l with
  | nil =>
    intro n inE seq _ _
    simp [truncLoop, visibleLenLoop]
  | cons c rest ih =>
    intro n inE seq hf ht
    simp only [truncLoop]
    split_ifs with h1 h2 h3 h4
    · exact ih n true [c] (by simp) (fun _ => ⟨[], by rw [h1], by simp⟩)
    · obtain ⟨mids, hseq, hm⟩ := ht h2
      have happ : truncLoop width rest n ([] ++ (seq ++ [c])) false []
          = (seq ++ [c]) ++ truncLoop width rest n [] false [] := by
        have := truncLoop_append width rest n (seq ++ [c]) [] false []
        simpa using this
      rw [happ, hseq, h3]
      have hshape : ((escChar :: mids) ++ ['m'])
            ++ truncLoop width rest n [] false []
          = escChar :: (mids ++ 'm' :: truncLoop width rest n [] false []) := by
        simp
      rw [hshape]
      have hstep : visibleLenLoop
            (escChar :: (mids ++ 'm' :: truncLoop width rest n [] false [])) false
          = visibleLenLoop (mids ++ 'm' :: truncLoop width rest n [] false []) true := by
        simp [visibleLenLoop]
      rw [hstep, visibleLenLoop_escape_run mids _ hm]
      exact ih n false [] (fun _ => rfl) (by simp)
    · obtain ⟨mids, hseq, hm⟩ := ht h2
      refine ih n true (seq ++ [c]) (by simp) (fun _ => ⟨mids ++ [c], by rw [hseq]; simp, ?_⟩)
      simp only [List.mem_append, List.mem_singleton]
      rintro (hx | hx)
      · exact hm hx
      · exact h3 hx.symm
    · simp [visibleLenLoop]
    · have happ : truncLoop width rest (n + 1) ([] ++ [c]) inE seq
          = [c] ++ truncLoop width rest (n + 1) [] inE seq := by
        have := truncLoop_append width rest (n + 1) [c] [] inE seq
        simpa using this
      rw [happ]
      have hc : visibleLenLoop ([c] ++ truncLoop width rest (n + 1) [] inE seq) false
          = visibleLenLoop (truncLoop width rest (n + 1) [] inE seq) false + 1 := by
        simp [visibleLenLoop, h1]
      rw [hc]
      have := ih (n + 1) inE seq hf ht
      omega

/-- Claim C5: the shared ANSI-aware truncation is total (it is a Lean
function, defined on every input string including ones with malformed or
unterminated escape sequences), its output's escape-stripped length never
exceeds the requested width, and whenever the output contains an escape
introducer it ends in the reset sequence — every produced row closes its
styling. -/
theorem truncate_safety (line : List Char) (width : Nat) :
    visibleLen (truncateToWidth line width) ≤ width ∧
    (containsSub escBracket (truncateToWidth line width) = true →
      resetSeq.isSuffixOf (truncateToWidth line width) = true) := by
  have hbase : visibleLenLoop (truncLoop width line 0 [] false []) false ≤ width := by
    simpa using visLen_truncLoop width line 0 false [] (fun _ => rfl) (by simp)
  constructor
  · unfold truncateToWidth visibleLen
    dsimp only
    split_ifs with h
    · rw [visibleLenLoop_append_reset]
      exact hbase
    · exact hbase
  · intro hc
    unfold truncateToWidth at hc ⊢
    dsimp only at hc ⊢
    split_ifs at hc ⊢ with h
    · simp [List.isSuffixOf]
    · simp [hc] at h
      simpa [List.isSuffixOf] using h

/-- Witness for claim C5 on a styled line truncated to width 3: the output
contains an escape introducer, so the implication's hypothesis holds, and
both conclusions are checked on the evaluated result. -/
theorem truncate_safety_witness :
    visibleLen (truncateToWidth
      (InlineDiffView.red ++ ['h', 'e', 'l', 'l', 'o']) 3) ≤ 3 ∧
    resetSeq.isSuffixOf (truncateToWidth
      (InlineDiffView.red ++ ['h', 'e', 'l', 'l', 'o']) 3) = true :=
  have h := truncate_safety (InlineDiffView.red ++ ['h', 'e', 'l', 'l', 'o']) 3
  ⟨h.1, h.2 (by decide)⟩

end PiDiff

namespace PiDiff

theorem natToChars_length_mono (n : Nat) : ∀ m : Nat, m ≤ n →
    (natToChars m).length ≤ (natToChars n).length := by
  induction n using Nat.strong_induction_on with
  | _ n ih =>
    intro m hm
    rw [natToChars_eq n, natToChars_eq m]
    by_cases hn : n < 10
    · rw [if_pos hn, if_pos (by omega)]
      simp
    · rw [if_neg hn]
      by_cases hm10 : m < 10
      · rw [if_pos hm10]
        simp
      · rw [if_neg hm10]
        have hd := ih (n / 10) (Nat.div_lt_self (by omega) (by omega))
          (m / 10) (Nat.div_le_div_right hm)
        simp only [List.length_append, List.length_cons, List.length_nil]
        omega

theorem natToChars_digits (n : Nat) : ∀ c, c ∈ natToChars n →
    ∃ d, d < 10 ∧ c = digitChar d := by
  induction n using Nat.strong_induction_on with
  | _ n ih =>
    intro c hc
    rw [natToChars_eq] at hc
    by_cases hn : n < 10
    · rw [if_pos hn] at hc
      simp at hc
      exact ⟨n, hn, hc⟩
    · rw [if_neg hn] at hc
      rw [List.mem_append] at hc
      rcases hc with hc | hc
      · exact ih (n / 10) (Nat.div_lt_self (by omega) (by omega)) c hc
      · simp at hc
        exact ⟨n % 10, Nat.mod_lt _ (by omega), hc⟩

theorem escChar_not_mem_natToChars (n : Nat) : escChar ∉ natToChars n := by
  intro hmem
  obtain ⟨d, hd, he⟩ := natToChars_digits n escChar hmem
  have hall : ∀ d : Nat, d < 10 → digitChar d ≠ escChar := by decide
  exact hall d hd he.symm

theorem displayedNumber_eq (h : DiffLine) :
    displayedNumber h = h.newLineNumber.getD (h.oldLineNumber.getD 0) := by
  cases hn : h.newLineNumber <;> simp [displayedNumber, trackedNumber, hn]

theorem foldl_max_le_init (f : DiffLine → Nat) (l : List DiffLine) :
    ∀ acc : Nat, acc ≤ l.foldl (fun mx h => Nat.max mx (f h)) acc := by
  induction l with
  | nil => intro acc; simp
  | cons h t ih =>
    intro acc
    exact le_trans (Nat.le_max_left acc (f h)) (ih (Nat.max acc (f h)))

theorem mem_le_foldl_max (f : DiffLine → Nat) (l : List DiffLine) (x : DiffLine)
    (hx : x ∈ l) : ∀ acc : Nat, f x ≤ l.foldl (fun mx h => Nat.max mx (f h)) acc := by
  induction l with
  | nil => cases hx
  | cons h t ih =>
    intro acc
    rcases List.mem_cons.mp hx with he | ht
    · subst he
      exact le_trans (Nat.le_max_right acc (f x)) (foldl_max_le_init f t _)
    · exact ih ht _

theorem displayed_le_max (d : FileDiff) (h : DiffLine) (hmem : h ∈ d.hunks) :
    displayedNumber h ≤ InlineDiffView.getMaxLineNumber d := by
  have := mem_le_foldl_max
    (fun hk => hk.newLineNumber.getD (hk.oldLineNumber.getD 0)) d.hunks h hmem 0
  rw [displayedNumber_eq]
  exact this

theorem renderHunk_rawContent (hl : Option HighlightFn) (fp : List Char)
    (h : DiffLine) (w : Nat) :
    (InlineDiffView.renderHunk hl fp h w).rawContent
      = padStart (natToChars (displayedNumber h)) w ' '
          ++ ' ' :: markerChar h.type :: ' ' :: h.content := by
  rcases h with ⟨ty, cont, o, n⟩
  rw [displayedNumber_eq]
  rcases ty <;>
    simp [InlineDiffView.renderHunk, markerChar]

theorem padStart_length (s : List Char) (w : Nat) (c : Char) :
    (padStart s w c).length = Nat.max w s.length := by
  simp [padStart, Nat.max_def]
  split_ifs <;> omega

theorem rawContent_drop (hl : Option HighlightFn) (fp : List Char) (h : DiffLine)
    (w : Nat) (hw : (natToChars (displayedNumber h)).length ≤ w) :
    ((InlineDiffView.renderHunk hl fp h w).rawContent).drop (w + 3) = h.content := by
  rw [renderHunk_rawContent]
  have hassoc : padStart (natToChars (displayedNumber h)) w ' '
        ++ ' ' :: markerChar h.type :: ' ' :: h.content
      = (padStart (natToChars (displayedNumber h)) w ' '
          ++ [' ', markerChar h.type, ' ']) ++ h.content := by
    simp
  rw [hassoc]
  refine List.drop_left' ?_
  rw [List.length_append, padStart_length]
  simp
  omega

theorem mem_sepListOf (p c : Option Nat) (rl : InlineDiffView.RenderedLine)
    (hmem : rl ∈ sepListOf p c) : rl = InlineDiffView.createSeparatorLine := by
  rcases p with _ | p <;> rcases c with _ | c <;> simp [sepListOf] at hmem <;>
    first
      | exact hmem.elim
      | (rcases hmem with ⟨_, hmem⟩; exact hmem)

theorem inline_buildLoop_mem (hl : Option HighlightFn) (fp : List Char) (w : Nat)
    (hunks : List DiffLine) :
    ∀ (prev : Option Nat) (rl : InlineDiffView.RenderedLine),
      rl ∈ InlineDiffView.buildLoop hl fp w hunks prev →
      rl = InlineDiffView.createSeparatorLine ∨
        ∃ h ∈ hunks, rl = InlineDiffView.renderHunk hl fp h w := by
  induction hunks with
  | nil =>
    intro prev rl hmem
    simp [InlineDiffView.buildLoop] at hmem
  | cons h t ih =>
    intro prev rl hmem
    have hstep : InlineDiffView.buildLoop hl fp w (h :: t) prev
        = sepListOf prev (trackedNumber h) ++ InlineDiffView.renderHunk hl fp h w ::
            InlineDiffView.buildLoop hl fp w t (stepTracked prev h) := rfl
    rw [hstep, List.mem_append, List.mem_cons] at hmem
    rcases hmem with hmem | hmem | hmem
    · exact Or.inl (mem_sepListOf _ _ _ hmem)
    · exact Or.inr ⟨h, by simp, hmem⟩
    · rcases ih (stepTracked prev h) rl hmem with hs | ⟨h2, hm2, he2⟩
      · exact Or.inl hs
      · exact Or.inr ⟨h2, by simp [hm2], he2⟩

end PiDiff

namespace PiDiff

theorem stripEscapesLoop_no_esc (a : List Char) :
    ∀ b : List Char, escChar ∉ a →
      stripEscapesLoop (a ++ b) false = a ++ stripEscapesLoop b false := by
  induction a with
  | nil => intro b _; rfl
  | cons c cs ih =>
    intro b hne
    have hc : c ≠ escChar := fun h => hne (by simp [h])
    have hcs : escChar ∉ cs := fun h => hne (by simp [h])
    simp only [List.cons_append, stripEscapesLoop, hc, Bool.false_eq_true, if_false,
      List.append_eq]
    rw [ih b hcs]

theorem strip_colorOf (t : DiffLineType) (x : List Char) :
    stripEscapesLoop (colorOf t ++ x) false = stripEscapesLoop x false := by
  rcases t <;> rfl

theorem strip_resetSeq : stripEscapesLoop resetSeq false = [] := rfl

theorem renderHunk_content_none (fp : List Char) (h : DiffLine) (w : Nat) :
    (InlineDiffView.renderHunk none fp h w).content
      = colorOf h.type ++ (padStart (natToChars (displayedNumber h)) w ' '
          ++ ' ' :: markerChar h.type :: ' ' :: (h.content ++ resetSeq)) := by
  rcases h with ⟨ty, cont, o, n⟩
  rw [displayedNumber_eq]
  rcases ty <;> simp [InlineDiffView.renderHunk, markerChar, colorOf]

theorem escChar_not_mem_head (h : DiffLine) (w : Nat) :
    escChar ∉ (padStart (natToChars (displayedNumber h)) w ' '
      ++ [' ', markerChar h.type, ' ']) := by
  intro hmem
  rw [List.mem_append] at hmem
  rcases hmem with hmem | hmem
  · rw [padStart, List.mem_append] at hmem
    rcases hmem with hmem | hmem
    · rw [List.mem_replicate] at hmem
      exact absurd hmem.2 (by decide)
    · exact escChar_not_mem_natToChars _ hmem
  · cases ht : h.type <;> rw [ht] at hmem <;> exact absurd hmem (by decide)

/-- Claim C6: every non-separator line the inline renderer builds comes from
a hunk of the diff; dropping the fixed line-number column plus the
three-character blank-marker-blank slot from its cached escape-stripped
`rawContent` reproduces the hunk's content verbatim; and — with no
highlighter injected and content free of raw escape characters — stripping
the escape codes of the styled line yields exactly that `rawContent`. -/
theorem inline_rawContent_roundtrip (hl : Option HighlightFn) (d : FileDiff)
    (rl : InlineDiffView.RenderedLine)
    (hmem : rl ∈ InlineDiffView.buildRenderedLines hl d)
    (hsep : rl ≠ InlineDiffView.createSeparatorLine) :
    ∃ h ∈ d.hunks,
      rl = InlineDiffView.renderHunk hl d.filePath h (inlineLineNumberWidth d) ∧
      rl.rawContent.drop (inlineLineNumberWidth d + 3) = h.content ∧
      (hl = none → escChar ∉ h.content → stripEscapes rl.content = rl.rawContent) := by
  unfold inlineLineNumberWidth
  unfold InlineDiffView.buildRenderedLines at hmem
  split_ifs at hmem with hnil
  · simp at hmem
  · have hmem2 := inline_buildLoop_mem hl d.filePath
      ((natToChars (InlineDiffView.getMaxLineNumber d)).length) d.hunks none rl hmem
    rcases hmem2 with hs | ⟨h, hh, he⟩
    · exact absurd hs hsep
    · refine ⟨h, hh, he, ?_, ?_⟩
      · rw [he]
        exact rawContent_drop hl d.filePath h _
          (natToChars_length_mono _ _ (displayed_le_max d h hh))
      · intro hhl hesc
        subst hhl
        rw [he, renderHunk_content_none, renderHunk_rawContent]
        unfold stripEscapes
        rw [strip_colorOf]
        have hassoc : padStart (natToChars (displayedNumber h))
              ((natToChars (InlineDiffView.getMaxLineNumber d)).length) ' '
              ++ ' ' :: markerChar h.type :: ' ' :: (h.content ++ resetSeq)
            = ((padStart (natToChars (displayedNumber h))
                ((natToChars (InlineDiffView.getMaxLineNumber d)).length) ' '
                ++ [' ', markerChar h.type, ' ']) ++ h.content) ++ resetSeq := by
          simp
        rw [hassoc]
        have hne : escChar ∉ (padStart (natToChars (displayedNumber h))
              ((natToChars (InlineDiffView.getMaxLineNumber d)).length) ' '
              ++ [' ', markerChar h.type, ' ']) ++ h.content := by
          intro hx
          rw [List.mem_append] at hx
          rcases hx with hx | hx
          · exact escChar_not_mem_head h _ hx
          · exact hesc hx
        rw [stripEscapesLoop_no_esc _ resetSeq hne, strip_resetSeq]
        simp

/-- Witness for claim C6 at the first rendered line of `exampleDiff` (a
context line with content `a`): the membership and non-separator hypotheses
hold by evaluation. -/
theorem inline_rawContent_roundtrip_witness :
    ∃ h ∈ exampleDiff.hunks,
      sampleRenderedLine = InlineDiffView.renderHunk none exampleDiff.filePath h
        (inlineLineNumberWidth exampleDiff) ∧
      sampleRenderedLine.rawContent.drop (inlineLineNumberWidth exampleDiff + 3)
        = h.content ∧
      ((none : Option HighlightFn) = none → escChar ∉ h.content →
        stripEscapes sampleRenderedLine.content = sampleRenderedLine.rawContent) :=
  inline_rawContent_roundtrip none exampleDiff sampleRenderedLine
    (by decide) (by decide)

end PiDiff

namespace PiDiff

theorem inline_renderHunkE_lift (f : HighlightFn) (fp : List Char) (h : DiffLine)
    (w : Nat) :
    InlineDiffView.renderHunkE (some (liftHighlight f)) fp h w
      = Except.ok (InlineDiffView.renderHunk (some f) fp h w) := by
  rcases h with ⟨ty, cont, o, n⟩
  rcases ty <;> rfl

theorem inline_buildLoopE_lift (f : HighlightFn) (fp : List Char) (w : Nat)
    (hunks : List DiffLine) :
    ∀ prev : Option Nat,
      InlineDiffView.buildLoopE (some (liftHighlight f)) fp w hunks prev
        = Except.ok (InlineDiffView.buildLoop (some f) fp w hunks prev) := by
  induction hunks with
  | nil => intro prev; rfl
  | cons h t ih =>
    intro prev
    simp only [InlineDiffView.buildLoopE, InlineDiffView.buildLoop]
    rw [inline_renderHunkE_lift, ih]
    rfl

theorem inline_buildRenderedLinesE_lift (f : HighlightFn) (d : FileDiff) :
    InlineDiffView.buildRenderedLinesE (some (liftHighlight f)) d
      = Except.ok (InlineDiffView.buildRenderedLines (some f) d) := by
  unfold InlineDiffView.buildRenderedLinesE InlineDiffView.buildRenderedLines
  split_ifs with h
  · rfl
  · exact inline_buildLoopE_lift f d.filePath _ d.hunks none

theorem sbs_renderHunkE_lift (f : HighlightFn) (fp : List Char) (h : DiffLine)
    (wo wn : Nat) :
    SideBySideDiffView.renderHunkE (some (liftHighlight f)) fp h wo wn
      = Except.ok (SideBySideDiffView.renderHunk (some f) fp h wo wn) := by
  rcases h with ⟨ty, cont, o, n⟩
  rcases ty <;> rfl

theorem sbs_buildLoopE_lift (f : HighlightFn) (fp : List Char) (wo wn : Nat)
    (hunks : List DiffLine) :
    ∀ po pn : Option Nat,
      SideBySideDiffView.buildLoopE (some (liftHighlight f)) fp wo wn hunks po pn
        = Except.ok (SideBySideDiffView.buildLoop (some f) fp wo wn hunks po pn) := by
  induction hunks with
  | nil => intro po pn; rfl
  | cons h t ih =>
    intro po pn
    simp only [SideBySideDiffView.buildLoopE, SideBySideDiffView.buildLoop]
    rw [sbs_renderHunkE_lift, ih]
    rfl

theorem sbs_buildRenderedLinesE_lift (f : HighlightFn) (d : FileDiff) :
    SideBySideDiffView.buildRenderedLinesE (some (liftHighlight f)) d
      = Except.ok (SideBySideDiffView.buildRenderedLines (some f) d) := by
  unfold SideBySideDiffView.buildRenderedLinesE SideBySideDiffView.buildRenderedLines
  split_ifs with h
  · rfl
  · exact sbs_buildLoopE_lift f d.filePath _ _ d.hunks none none

/-- Counterexample to claim C7 as stated: with an injected highlight function
that throws on every call, rebuilding the rendered lines of `exampleDiff`
(which contains context lines) propagates the exception out of the
constructor/`setDiff` path of both renderers — the rendering core itself has
no catch around the highlight call site. -/
theorem highlight_throw_propagates :
    InlineDiffView.buildRenderedLinesE (some fun _ _ => Except.error ()) exampleDiff
      = Except.error () ∧
    SideBySideDiffView.buildRenderedLinesE (some fun _ _ => Except.error ()) exampleDiff
      = Except.error () :=
  ⟨rfl, rfl⟩

/-- Claim C7 (amended): the containment of highlight failures happens in the
host-side wrapper built around the external `highlightCode` before injection
(`hostHighlightFn`), which is total and falls back to the original code.
With that wrapper injected, building the rendered lines never throws — for
every underlying (fallible) `highlightCode`, every theme, every
language-lookup and every diff, both renderers' fallible build path returns
`ok` of exactly the total rendering. -/
theorem highlight_containment_in_host (Lang Theme : Type)
    (getLanguageFromPath : List Char → Option Lang)
    (highlightCode : List Char → Lang → Theme → Except Unit (List Char))
    (theme : Theme) (d : FileDiff) :
    InlineDiffView.buildRenderedLinesE
        (some (liftHighlight (hostHighlightFn getLanguageFromPath highlightCode theme))) d
      = Except.ok (InlineDiffView.buildRenderedLines
          (some (hostHighlightFn getLanguageFromPath highlightCode theme)) d) ∧
    SideBySideDiffView.buildRenderedLinesE
        (some (liftHighlight (hostHighlightFn getLanguageFromPath highlightCode theme))) d
      = Except.ok (SideBySideDiffView.buildRenderedLines
          (some (hostHighlightFn getLanguageFromPath highlightCode theme)) d) :=
  ⟨inline_buildRenderedLinesE_lift _ d, sbs_buildRenderedLinesE_lift _ d⟩

theorem foldl_max_eq_foldr (f : DiffLine → Nat) (l : List DiffLine) :
    ∀ acc : Nat, l.foldl (fun mx h => Nat.max mx (f h)) acc
      = Nat.max acc ((l.map f).foldr Nat.max 0) := by
  induction l with
  | nil => intro acc; simp
  | cons h t ih =>
    intro acc
    simp only [List.foldl_cons, List.map_cons, List.foldr_cons]
    rw [ih (Nat.max acc (f h))]
    exact Nat.max_assoc acc (f h) _

theorem getMax_eq_maxDisplayed (d : FileDiff) :
    InlineDiffView.getMaxLineNumber d = maxDisplayedNumber d := by
  unfold InlineDiffView.getMaxLineNumber maxDisplayedNumber
  simp only [← displayedNumber_eq]
  rw [foldl_max_eq_foldr displayedNumber d.hunks 0]
  simp

/-- Counterexample to claim C8 as stated: on `skewedContextDiff` (one context
hunk with old number 10 and new number 3) the inline renderer sizes the
column from the displayed number 3 (1 digit), while the maximum over all old
and new numbers in the diff is 10 (2 digits). -/
theorem inline_column_width_counterexample :
    inlineLineNumberWidth skewedContextDiff = 1 ∧
    maxAllLineNumbers skewedContextDiff = 10 ∧
    (natToChars (maxAllLineNumbers skewedContextDiff)).length = 2 ∧
    inlineLineNumberWidth skewedContextDiff
      ≠ (natToChars (maxAllLineNumbers skewedContextDiff)).length :=
  ⟨by decide, by decide, by decide, by decide⟩

/-- Claim C8 (amended): the inline renderer's fixed line-number column width
equals the digit count of the maximum over the hunks' *displayed* numbers —
each hunk's new line number if present, else its old one, else 0 — not the
maximum over all old and new numbers. -/
theorem inline_column_width_eq (d : FileDiff) :
    inlineLineNumberWidth d = (natToChars (maxDisplayedNumber d)).length := by
  unfold inlineLineNumberWidth
  rw [getMax_eq_maxDisplayed]

/-- Counterexample to claim C9 as stated: the spec's example diff contains
two added hunks, so the inline rendering has exactly two `+`-marked lines,
not exactly one. -/
theorem inline_example_counterexample :
    markerCount '+' (inlineLineNumberWidth exampleDiff)
      (InlineDiffView.buildRenderedLines none exampleDiff) = 2 ∧
    ¬ markerCount '+' (inlineLineNumberWidth exampleDiff)
      (InlineDiffView.buildRenderedLines none exampleDiff) = 1 :=
  ⟨by decide, by decide⟩

/-- Claim C9 (amended): the example diff `[context 1/1, removed 2/—,
added —/2, added —/3, context 3/4]` renders exactly 5 inline lines, none of
them a separator, with exactly two `+`-marked lines (one per added hunk) and
exactly one `-`-marked line. -/
theorem inline_example_rendering :
    (InlineDiffView.buildRenderedLines none exampleDiff).length = 5 ∧
    inlineSepCount (InlineDiffView.buildRenderedLines none exampleDiff) = 0 ∧
    markerCount '+' (inlineLineNumberWidth exampleDiff)
      (InlineDiffView.buildRenderedLines none exampleDiff) = 2 ∧
    markerCount '-' (inlineLineNumberWidth exampleDiff)
      (InlineDiffView.buildRenderedLines none exampleDiff) = 1 :=
  ⟨by decide, by decide, by decide, by decide⟩

end PiDiff
